import Mathlib

/-!
# Verification of the `lattice` event-notification core

Shallow embedding, in Lean 4, of the event log range query, the webhook
dispatcher (payload shaping, signing, retry queue), and the rate limiter
(token buckets and SSE connection capacity) of the `lattice` server, together
with proofs of the specified properties.

Each embedded definition mirrors one Rust item from the repository; doc
comments name the source file. External crates (serde_json, hmac/sha2, the
HTTP client) appear as explicit function parameters: the theorems hold for
every behaviour of those collaborators.
-/

namespace Lattice

/-- Error taxonomy (`src/error.rs`, `pub enum AppError`). Only the variants
produced by the embedded functions are used. -/
inductive AppError where
  | badRequest (message : String)
  | unauthorized
  | notFound (message : String)
  | conflict (message : String)
  | internal
deriving Repr, DecidableEq

/-! ## Event log (`src/db/models.rs`, `src/db/queries.rs`) -/

/-- `SystemEventRecord` (`src/db/models.rs`). `created_at` and `id` are the
TEXT columns the SQL compares; Lean's `String` order coincides with SQLite's
byte-wise BINARY collation on them. -/
structure SystemEventRecord where
  id : String
  project_slug : String
  task_id : Option String
  task_number : Option Int
  actor : String
  action : String
  detail : String
  created_at : String
deriving Repr, DecidableEq

/-- The two-column ordering key `(created_at, id)` used by
`ORDER BY e.created_at ASC, e.id ASC`. -/
def eventKey (e : SystemEventRecord) : String × String :=
  (e.created_at, e.id)

/-- The comparison the SQL `ORDER BY created_at ASC, id ASC` induces on rows:
lexicographic order on the key pair. -/
def eventLe (e1 e2 : SystemEventRecord) : Prop :=
  toLex (eventKey e1) ≤ toLex (eventKey e2)

instance : DecidableRel eventLe := fun e1 e2 =>
  inferInstanceAs (Decidable (toLex (eventKey e1) ≤ toLex (eventKey e2)))

instance : IsTotal SystemEventRecord eventLe :=
  ⟨fun e1 e2 => le_total (toLex (eventKey e1)) (toLex (eventKey e2))⟩

instance : IsTrans SystemEventRecord eventLe :=
  ⟨fun _ _ _ h1 h2 => le_trans h1 h2⟩

/-- The `WHERE` clause of `list_system_events` (`src/db/queries.rs`): the
optional `p.slug IN (...)` filter (empty slug list means no constraint,
mirroring the builder that only pushes the `IN` clause for a non-empty list)
and the strict cursor comparison
`e.created_at > ? OR (e.created_at = ? AND e.id > ?)`. -/
def eventMatches (project_slugs : List String) (cursor : Option (String × String))
    (e : SystemEventRecord) : Bool :=
  (project_slugs.isEmpty || project_slugs.contains e.project_slug) &&
    (match cursor with
     | none => true
     | some (created_at, event_id) =>
         decide (created_at < e.created_at) ||
           (decide (e.created_at = created_at) && decide (event_id < e.id)))

/-- `list_system_events` (`src/db/queries.rs`): validates the limit and the
cursor pairing, then runs the range query. The SQL `SELECT ... WHERE ...
ORDER BY e.created_at ASC, e.id ASC LIMIT ?` over the `system_events` table is
embedded as filter, sort by `eventLe`, and take over the list of stored rows. -/
def list_system_events (log : List SystemEventRecord) (project_slugs : List String)
    (after_created_at after_id : Option String) (limit : Int) :
    Except AppError (List SystemEventRecord) :=
  if limit ≤ 0 ∨ 200 < limit then
    .error (.badRequest "limit must be between 1 and 200")
  else if after_created_at.isSome ≠ after_id.isSome then
    .error (.badRequest "after_created_at and after_id must be provided together")
  else
    let cursor : Option (String × String) :=
      after_created_at.bind fun created_at => after_id.map fun event_id =>
        (created_at, event_id)
    .ok (((log.filter (eventMatches project_slugs cursor)).insertionSort
      eventLe).take limit.toNat)

/-- `SSE_POLL_LIMIT` (`src/api/events.rs`): the fixed limit the interactive
SSE poll loop passes to `list_system_events`. -/
def SSE_POLL_LIMIT : Int := 100

/-- `DISPATCH_BATCH_SIZE` (`src/webhooks/mod.rs`): the fixed limit the webhook
dispatcher passes to `list_system_events`. -/
def DISPATCH_BATCH_SIZE : Int := 100

/-- C8 (amended): `list_system_events` rejects, as a validation error computed
before any side effect (the error is independent of the stored log), every
`limit ≤ 0`, every `limit > 200` (a single fixed ceiling for all callers),
and every partial cursor where exactly one of `after_created_at` / `after_id`
is supplied; the interactive SSE poll and the dispatcher each pass the fixed
in-range limit 100, and a valid limit with a complete or absent cursor is
never rejected. -/
theorem list_system_events_validation (log : List SystemEventRecord)
    (project_slugs : List String) (after_created_at after_id : Option String)
    (limit : Int) :
    ((limit ≤ 0 ∨ 200 < limit) →
      list_system_events log project_slugs after_created_at after_id limit =
        .error (.badRequest "limit must be between 1 and 200")) ∧
    (0 < limit → limit ≤ 200 → after_created_at.isSome ≠ after_id.isSome →
      list_system_events log project_slugs after_created_at after_id limit =
        .error (.badRequest "after_created_at and after_id must be provided together")) ∧
    (∀ err, list_system_events log project_slugs after_created_at after_id limit =
        .error err →
      list_system_events [] project_slugs after_created_at after_id limit =
        .error err) ∧
    SSE_POLL_LIMIT = 100 ∧ DISPATCH_BATCH_SIZE = 100 ∧
    (0 < limit → limit ≤ 200 → after_created_at.isSome = after_id.isSome →
      ∃ events, list_system_events log project_slugs after_created_at after_id limit =
        .ok events) := by
  refine ⟨?_, ?_, ?_, rfl, rfl, ?_⟩
  · intro h
    rw [list_system_events, if_pos h]
  · intro h1 h2 h3
    rw [list_system_events, if_neg (by omega), if_pos h3]
  · intro err herr
    by_cases h : limit ≤ 0 ∨ 200 < limit
    · rw [list_system_events, if_pos h] at herr ⊢
      exact herr
    · by_cases h' : after_created_at.isSome ≠ after_id.isSome
      · rw [list_system_events, if_neg h, if_pos h'] at herr ⊢
        exact herr
      · rw [list_system_events, if_neg h, if_neg h'] at herr
        exact absurd herr (by simp)
  · intro h1 h2 h3
    rw [list_system_events, if_neg (by omega), if_neg (by simp [h3])]
    exact ⟨_, rfl⟩

/-- Witness for C8's theorem at a concrete input: limit 300 is rejected,
limit 5 with a half cursor is rejected, the same error arises on the empty
log, and limit 5 with no cursor succeeds. -/
theorem list_system_events_validation_witness :
    list_system_events [] [] (some "t") none 5 =
      .error (.badRequest "after_created_at and after_id must be provided together") :=
  (list_system_events_validation [] [] (some "t") none 5).2.1
    (by decide) (by decide) (by decide)

/-- Counterexample to C8 as stated: the claim reads that a limit above the
"interactive ceiling" 100 is rejected as a validation error, but the query
has a single ceiling of 200 — a call with limit 150 succeeds. (The
interactive SSE path passes the fixed constant 100; 100 is never a rejection
threshold.) -/
theorem list_system_events_accepts_150 :
    list_system_events [] [] none none 150 = .ok [] ∧ SSE_POLL_LIMIT = 100 := by
  exact ⟨rfl, rfl⟩

/-- C1: for every project filter, well-formed cursor pair, and valid limit,
`list_system_events` returns events sorted strictly ascending in the
lexicographic order on `(created_at, id)` (id breaking timestamp ties, ids
being unique), every returned event is strictly greater than the cursor pair,
and if the cursor is the greatest key of the filtered log the result is
empty. -/
theorem list_system_events_cursor_query_correct
    (log : List SystemEventRecord) (project_slugs : List String)
    (ca aid : String) (limit : Int) (res : List SystemEventRecord)
    (hids : (log.map SystemEventRecord.id).Nodup)
    (hpos : 0 < limit) (hcap : limit ≤ 200)
    (hres : list_system_events log project_slugs (some ca) (some aid) limit =
      .ok res) :
    res.Pairwise (fun e1 e2 => toLex (eventKey e1) < toLex (eventKey e2)) ∧
    (∀ e ∈ res, toLex (ca, aid) < toLex (eventKey e)) ∧
    ((∀ e ∈ log,
        (project_slugs.isEmpty || project_slugs.contains e.project_slug) = true →
        toLex (eventKey e) ≤ toLex (ca, aid)) → res = []) := by
  rw [list_system_events, if_neg (by omega), if_neg (by simp)] at hres
  have hres' :
      ((log.filter (eventMatches project_slugs (some (ca, aid)))).insertionSort
        eventLe).take limit.toNat = res := Except.ok.inj hres
  clear hres
  subst hres'
  have hperm := List.perm_insertionSort eventLe
    (log.filter (eventMatches project_slugs (some (ca, aid))))
  refine ⟨?_, ?_, ?_⟩
  · have hsorted : List.Sorted eventLe
        ((log.filter (eventMatches project_slugs (some (ca, aid)))).insertionSort
          eventLe) :=
      List.sorted_insertionSort eventLe _
    have hnodup1 :
        ((log.filter (eventMatches project_slugs (some (ca, aid)))).map
          SystemEventRecord.id).Nodup :=
      hids.sublist ((List.filter_sublist _).map _)
    have hnodup2 :
        (((log.filter (eventMatches project_slugs (some (ca, aid)))).insertionSort
          eventLe).map SystemEventRecord.id).Nodup :=
      ((hperm.map _).nodup_iff).mpr hnodup1
    rw [List.Nodup, List.pairwise_map] at hnodup2
    have hstrict := (hsorted.and hnodup2).imp
      (fun {a b} h => lt_of_le_of_ne h.1 (fun heq => h.2 (congrArg Prod.snd
        (toLex.injective heq))))
    exact hstrict.sublist (List.take_sublist _ _)
  · intro e he
    have he1 := (List.take_sublist _ _).subset he
    have he2 := hperm.mem_iff.mp he1
    have hm := List.of_mem_filter he2
    simp only [eventMatches, Bool.and_eq_true, Bool.or_eq_true,
      decide_eq_true_eq] at hm
    rcases hm.2 with h | ⟨heq, hid⟩
    · exact (Prod.Lex.lt_iff _ _).mpr (Or.inl h)
    · exact (Prod.Lex.lt_iff _ _).mpr (Or.inr ⟨heq.symm, hid⟩)
  · intro hmax
    have hnil : log.filter (eventMatches project_slugs (some (ca, aid))) = [] := by
      rw [List.filter_eq_nil_iff]
      intro e he hmatch
      simp only [eventMatches, Bool.and_eq_true, Bool.or_eq_true,
        decide_eq_true_eq] at hmatch
      obtain ⟨hslug, hcur⟩ := hmatch
      have hle' := hmax e he (by rw [Bool.or_eq_true]; exact hslug)
      rw [Prod.Lex.le_iff] at hle'
      simp only [eventKey] at hle'
      rcases hcur with h | ⟨heq, hid⟩
      · rcases hle' with h' | ⟨h', _⟩
        · exact absurd h (not_lt.mpr h'.le)
        · exact absurd h (h' ▸ lt_irrefl _)
      · rcases hle' with h' | ⟨_, hle2⟩
        · exact absurd heq (ne_of_lt h')
        · exact absurd hid (not_lt.mpr hle2)
    rw [hnil]
    simp

/-- Events for concrete witnesses: two events sharing a timestamp,
distinguished by id. -/
def wEventA : SystemEventRecord :=
  ⟨"ev01", "ROADMAP", none, none, "human", "task.created", "{}",
    "2024-01-01T00:00:00Z"⟩

/-- Second witness event: same `created_at` as `wEventA`, larger id. -/
def wEventB : SystemEventRecord :=
  ⟨"ev02", "ROADMAP", none, none, "agent", "task.moved", "{}",
    "2024-01-01T00:00:00Z"⟩

/-- Witness for C1's theorem: querying after the cursor of `wEventA` on a
two-event log with a shared timestamp returns exactly `wEventB`, strictly
sorted and strictly after the cursor. -/
theorem list_system_events_cursor_query_correct_witness :
    ([wEventA, wEventB].map SystemEventRecord.id).Nodup ∧
    ([wEventB].Pairwise (fun e1 e2 => toLex (eventKey e1) < toLex (eventKey e2)) ∧
      (∀ e ∈ [wEventB],
        toLex ("2024-01-01T00:00:00Z", "ev01") < toLex (eventKey e)) ∧
      ((∀ e ∈ [wEventA, wEventB],
          (([] : List String).isEmpty || ([] : List String).contains e.project_slug) = true →
          toLex (eventKey e) ≤ toLex ("2024-01-01T00:00:00Z", "ev01")) →
        [wEventB] = [])) := by
  have hids : ([wEventA, wEventB].map SystemEventRecord.id).Nodup := by decide
  refine ⟨hids, ?_⟩
  refine list_system_events_cursor_query_correct [wEventA, wEventB] []
    "2024-01-01T00:00:00Z" "ev01" 5 [wEventB] hids (by decide) (by decide) ?_
  have hf : List.filter (eventMatches []
      (some ("2024-01-01T00:00:00Z", "ev01"))) [wEventA, wEventB] = [wEventB] := by
    simp [eventMatches, wEventA, wEventB, String.lt_iff_toList_lt]
    decide
  rw [list_system_events, if_neg (by decide), if_neg (by decide)]
  show Except.ok (([wEventA, wEventB].filter (eventMatches []
      (some ("2024-01-01T00:00:00Z", "ev01")))).insertionSort eventLe
        |>.take (Int.toNat 5)) = _
  rw [hf]
  rfl

/-! ## Webhooks (`src/webhooks/mod.rs`, webhook queries in `src/db/queries.rs`) -/

/-- Rust `str::trim` on the character list: strip whitespace from both ends. -/
def rustTrimAux (l : List Char) : List Char :=
  ((l.dropWhile Char.isWhitespace).reverse.dropWhile Char.isWhitespace).reverse

/-- Rust `str::trim`, modelling the `.trim()` calls of the source. -/
def rustTrim (s : String) : String :=
  ⟨rustTrimAux s.data⟩

theorem dropWhile_all_iff {α : Type} (p : α → Bool) (l : List α) :
    (∀ c ∈ l.dropWhile p, p c) ↔ ∀ c ∈ l, p c := by
  constructor
  · intro h c hc
    rcases List.mem_append.mp
        ((List.takeWhile_append_dropWhile (p := p) (l := l)) ▸ hc) with h' | h'
    · exact List.mem_takeWhile_imp h'
    · exact h c h'
  · intro h c hc
    exact h c ((List.dropWhile_sublist (p := p) (l := l)).subset hc)

theorem rustTrimAux_eq_nil_iff (l : List Char) :
    rustTrimAux l = [] ↔ ∀ c ∈ l, Char.isWhitespace c := by
  rw [rustTrimAux, List.reverse_eq_nil_iff, List.dropWhile_eq_nil_iff]
  constructor
  · intro h
    rw [← dropWhile_all_iff Char.isWhitespace l]
    intro c hc
    exact h c (List.mem_reverse.mpr hc)
  · intro h c hc
    exact dropWhile_all_iff Char.isWhitespace l |>.mpr h c (List.mem_reverse.mp hc)

theorem rustTrimAux_not_all_whitespace (l : List Char) (h : rustTrimAux l ≠ []) :
    ∃ c ∈ rustTrimAux l, ¬ Char.isWhitespace c := by
  have hne : (l.dropWhile Char.isWhitespace).reverse.dropWhile
      Char.isWhitespace ≠ [] := by
    intro hnil
    apply h
    rw [rustTrimAux, hnil, List.reverse_nil]
  have hlen : 0 < ((l.dropWhile Char.isWhitespace).reverse.dropWhile
      Char.isWhitespace).length := List.length_pos.mpr hne
  have hhead := List.dropWhile_get_zero_not (p := Char.isWhitespace)
    ((l.dropWhile Char.isWhitespace).reverse) hlen
  exact ⟨_, List.mem_reverse.mpr (List.get_mem _ 0 hlen), by simpa using hhead⟩

theorem rustTrim_trim_ne_empty (s : String) (h : rustTrim s ≠ "") :
    rustTrim (rustTrim s) ≠ "" := by
  have h1 : rustTrimAux s.data ≠ [] := by
    intro hnil
    exact h (congrArg String.mk hnil)
  obtain ⟨c, hc, hcw⟩ := rustTrimAux_not_all_whitespace s.data h1
  intro hnil
  have h2 : rustTrimAux (rustTrimAux s.data) = [] := congrArg String.data hnil
  exact hcw ((rustTrimAux_eq_nil_iff _).mp h2 c hc)

/-- `normalize_optional_secret` (`src/db/queries.rs`): trim a submitted
secret; an absent or whitespace-only secret is stored as `None`. -/
def normalize_optional_secret (value : Option String) : Option String :=
  value.bind fun secret =>
    let trimmed := rustTrim secret
    if trimmed = "" then none else some trimmed

/-- `WebhookRecord` (`src/db/models.rs`). -/
structure WebhookRecord where
  id : String
  project_id : String
  name : String
  url : String
  platform : String
  events : String
  secret : Option String
  active : Int
  created_at : String
  updated_at : String
deriving Repr, DecidableEq

/-- `WEBHOOK_EVENTS` (`src/db/queries.rs`): the fixed event vocabulary. -/
def WEBHOOK_EVENTS : List String :=
  ["task.created", "task.updated", "task.moved", "task.deleted",
   "task.review_state_changed", "question.created", "question.resolved",
   "spec.updated", "goal.updated"]

/-- `normalize_webhook_events` (`src/db/queries.rs`): trim entries, drop
empties, reject the first entry outside the vocabulary, deduplicate into a
sorted set (`BTreeSet`), reject an empty result. -/
def normalize_webhook_events (events : List String) : Except AppError (List String) :=
  let candidates := (events.map rustTrim).filter (fun c => c ≠ "")
  match candidates.find? (fun c => !WEBHOOK_EVENTS.contains c) with
  | some c => .error (.badRequest ("invalid webhook event '" ++ c ++ "'"))
  | none =>
    let normalized := candidates.dedup.insertionSort (· ≤ ·)
    if normalized = [] then
      .error (.badRequest "webhook must subscribe to at least one event")
    else .ok normalized

/-- `parse_webhook_events` (`src/db/queries.rs`): decode the stored JSON
array of strings (`serde_json::from_str::<Vec<String>>`, passed in as
`fromStrVec` since it is an external crate; decode failure is `Internal`),
then normalize. -/
def parse_webhook_events (fromStrVec : String → Option (List String))
    (raw : String) : Except AppError (List String) :=
  match fromStrVec raw with
  | none => .error .internal
  | some parsed => normalize_webhook_events parsed

/-- `webhook_subscribed_to_event` (`src/webhooks/mod.rs`): a webhook whose
stored event set fails to parse is treated as not subscribed (logged and
skipped); otherwise membership of the action in the parsed set. -/
def webhook_subscribed_to_event (fromStrVec : String → Option (List String))
    (webhook : WebhookRecord) (event : String) : Bool :=
  match parse_webhook_events fromStrVec webhook.events with
  | .ok events => events.any (fun candidate => candidate = event)
  | .error _ => false

/-- Model of the external `serde_json` crate: `J` is the `serde_json::Value`
type, `parse` is `serde_json::from_str::<Value>`, `str` is
`serde_json::Value::String`. The theorems hold for every such model. -/
structure JsonModel (J : Type) where
  parse : String → Option J
  str : String → J

/-- `display_key` (`src/db/queries.rs`): `format!("{slug}-{task_number}")`. -/
def display_key (slug : String) (task_number : Int) : String :=
  slug ++ "-" ++ toString task_number

/-- `WebhookPayload` (`src/webhooks/mod.rs`), with the `serde_json::Value`
detail field abstracted to `J`. -/
structure WebhookPayload (J : Type) where
  event : String
  project : String
  task_id : Option String
  task_number : Option Int
  task_display_key : Option String
  actor : String
  detail : J
  created_at : String
deriving DecidableEq

/-- `payload_from_system_event` (`src/webhooks/mod.rs`): build the webhook
payload from a stored event; a detail column that does not parse as JSON is
wrapped as a JSON string of the raw text
(`unwrap_or_else(|_| Value::String(event.detail.clone()))`). -/
def payload_from_system_event {J : Type} (jm : JsonModel J)
    (event : SystemEventRecord) : WebhookPayload J :=
  { event := event.action
    project := event.project_slug
    task_id := event.task_id
    task_number := event.task_number
    task_display_key := event.task_number.map fun task_number =>
      display_key event.project_slug task_number
    actor := event.actor
    detail := (jm.parse event.detail).getD (jm.str event.detail)
    created_at := event.created_at }

/-- `TaskEventPayload` (`src/api/events.rs`), detail abstracted to `J`. -/
structure TaskEventPayload (J : Type) where
  id : String
  project : String
  task_id : Option String
  task_number : Option Int
  task_display_key : Option String
  action : String
  actor : String
  detail : J
  created_at : String
deriving DecidableEq

/-- `parse_event_detail` (`src/api/events.rs`): parse the stored detail,
falling back to a JSON string of the raw text. -/
def parse_event_detail {J : Type} (jm : JsonModel J) (value : String) : J :=
  (jm.parse value).getD (jm.str value)

/-- `map_task_event` (`src/api/events.rs`): build the SSE notification
payload from a stored event. -/
def map_task_event {J : Type} (jm : JsonModel J)
    (event : SystemEventRecord) : TaskEventPayload J :=
  { id := event.id
    project := event.project_slug
    task_id := event.task_id
    task_number := event.task_number
    task_display_key := event.task_number.map fun task_number =>
      display_key event.project_slug task_number
    action := event.action
    actor := event.actor
    detail := parse_event_detail jm event.detail
    created_at := event.created_at }

/-- C10: for every stored event whose detail column is not parseable as
JSON, both consumers still produce a full payload for the event (the mapping
functions are total and preserve id/action/actor/timestamp), and the SSE
notification and the webhook payload both carry `detail` equal to a JSON
string wrapping the raw detail text. -/
theorem unparsable_detail_is_delivered_as_string {J : Type} (jm : JsonModel J)
    (event : SystemEventRecord) (hfail : jm.parse event.detail = none) :
    (map_task_event jm event).detail = jm.str event.detail ∧
    (payload_from_system_event jm event).detail = jm.str event.detail ∧
    (map_task_event jm event).id = event.id ∧
    (map_task_event jm event).action = event.action ∧
    (payload_from_system_event jm event).event = event.action ∧
    (payload_from_system_event jm event).created_at = event.created_at := by
  refine ⟨?_, ?_, rfl, rfl, rfl, rfl⟩
  · rw [map_task_event]
    show (jm.parse event.detail).getD (jm.str event.detail) = jm.str event.detail
    rw [hfail]
    rfl
  · rw [payload_from_system_event]
    show (jm.parse event.detail).getD (jm.str event.detail) = jm.str event.detail
    rw [hfail]
    rfl

/-- Witness for C10's theorem: a JSON model that rejects the concrete detail
text `not-json` still yields payloads wrapping it as a JSON string. -/
theorem unparsable_detail_is_delivered_as_string_witness :
    ((⟨fun _ => none, fun s => s⟩ : JsonModel String).parse "not-json" = none) ∧
    (map_task_event (⟨fun _ => none, fun s => s⟩ : JsonModel String)
      ⟨"ev01", "ROADMAP", none, none, "human", "task.created", "not-json",
        "2024-01-01T00:00:00Z"⟩).detail = "not-json" :=
  ⟨rfl,
    (unparsable_detail_is_delivered_as_string
      (⟨fun _ => none, fun s => s⟩ : JsonModel String)
      ⟨"ev01", "ROADMAP", none, none, "human", "task.created", "not-json",
        "2024-01-01T00:00:00Z"⟩ rfl).1⟩

/-- One lowercase hexadecimal digit, as Rust's `{byte:02x}` formatting
produces. -/
def hexDigitChar (n : Nat) : Char :=
  if n < 10 then Char.ofNat (48 + n) else Char.ofNat (87 + n)

/-- Two-digit lowercase hex rendering of one byte (`{byte:02x}`). -/
def byteHex (b : Nat) : List Char :=
  [hexDigitChar (b / 16 % 16), hexDigitChar (b % 16)]

/-- Lowercase hex encoding of a byte sequence, as the loop in
`hmac_signature` (`src/webhooks/mod.rs`) builds it. -/
def hexBytes (bytes : List Nat) : String :=
  ⟨bytes.foldr (fun b acc => byteHex b ++ acc) []⟩

/-- `hmac_signature` (`src/webhooks/mod.rs`): `sha256=` followed by the
lowercase hex encoding of the MAC bytes. The MAC computation itself
(`Hmac<Sha256>` over the secret's UTF-8 bytes, from the external `hmac` /
`sha2` crates) is the parameter `hmacSha256`. -/
def hmac_signature (hmacSha256 : String → List Nat → List Nat)
    (secret : String) (body : List Nat) : String :=
  "sha256=" ++ hexBytes (hmacSha256 secret body)

/-- The outbound HTTP POST that `deliver_webhook` (`src/webhooks/mod.rs`)
builds: target URL, `Content-Type` header, optional `X-Lattice-Signature`
header, and the body bytes. -/
structure OutboundRequest where
  url : String
  content_type : String
  signature : Option String
  body : List Nat
deriving DecidableEq

/-- The secret-selection in `deliver_webhook`:
`webhook.secret.as_deref().filter(|value| !value.trim().is_empty())`. -/
def signing_secret (webhook : WebhookRecord) : Option String :=
  webhook.secret.filter fun value => decide (rustTrim value ≠ "")

/-- Request construction of `deliver_webhook` (`src/webhooks/mod.rs`): the
body is serialized once (`webhook_body`, whose serde-backed platform
rendering is the parameter `webhook_body`; `none` models a serialization
error, which aborts the delivery before any request is built), the
`X-Lattice-Signature` header is attached exactly for the `generic` platform
with a non-empty trimmed secret, and it signs the same `body` value that is
sent. The actual HTTP send (`reqwest`) is external; every dispatch, retry
and test delivery builds its request through this function. -/
def deliver_request {J : Type} (hmacSha256 : String → List Nat → List Nat)
    (webhook_body : WebhookRecord → WebhookPayload J → Option (List Nat))
    (webhook : WebhookRecord) (payload : WebhookPayload J) :
    Option OutboundRequest :=
  (webhook_body webhook payload).map fun body =>
    let base : OutboundRequest :=
      ⟨webhook.url, "application/json", none, body⟩
    if webhook.platform = "generic" then
      (signing_secret webhook).elim base fun secret =>
        { base with signature := some (hmac_signature hmacSha256 secret body) }
    else base

theorem hexDigitChar_mem_of_lt (n : Nat) (h : n < 16) :
    hexDigitChar n ∈ "0123456789abcdef".data := by
  interval_cases n <;> decide

theorem hexBytes_chars (bytes : List Nat) :
    ∀ c ∈ (hexBytes bytes).data, c ∈ "0123456789abcdef".data := by
  induction bytes with
  | nil =>
    intro c hc
    simp [hexBytes] at hc
  | cons b bs ih =>
    intro c hc
    rw [hexBytes] at hc
    rw [show (String.mk (List.foldr (fun b acc => byteHex b ++ acc) [] (b :: bs))).data
        = byteHex b ++ (hexBytes bs).data from rfl] at hc
    rcases List.mem_append.mp hc with h | h
    · rcases (by simpa [byteHex] using h :
          c = hexDigitChar (b / 16 % 16) ∨ c = hexDigitChar (b % 16)) with h | h <;>
        subst h <;> exact hexDigitChar_mem_of_lt _ (Nat.mod_lt _ (by omega))
    · exact ih c h

/-- Stored webhook secrets (`normalize_optional_secret` output) always pass
the trim filter of `deliver_webhook`: signing uses exactly the stored
secret. -/
theorem normalized_secret_signing (webhook : WebhookRecord) (raw : Option String)
    (hnorm : webhook.secret = normalize_optional_secret raw) :
    signing_secret webhook = webhook.secret := by
  rcases raw with _ | r
  · rw [signing_secret, hnorm]
    rfl
  · rw [signing_secret, hnorm, normalize_optional_secret, Option.some_bind]
    by_cases h : rustTrim r = ""
    · simp only [if_pos h]
      rfl
    · simp only [if_neg h]
      have hne : rustTrim (rustTrim r) ≠ "" := rustTrim_trim_ne_empty r h
      simp [Option.filter, hne]

/-- C3: for every webhook delivery (dispatch, retry and test all build their
request through `deliver_request`), the `X-Lattice-Signature` header is
attached iff the platform is `generic` and a secret is stored (stored
secrets, being `normalize_optional_secret` output, are exactly the non-empty
ones), and its value is `sha256=` followed by the lowercase hex encoding of
the HMAC-SHA256 of the secret over the exact serialized body bytes that are
sent. -/
theorem deliver_request_signature {J : Type}
    (hmacSha256 : String → List Nat → List Nat)
    (webhook_body : WebhookRecord → WebhookPayload J → Option (List Nat))
    (webhook : WebhookRecord) (payload : WebhookPayload J) (raw : Option String)
    (hnorm : webhook.secret = normalize_optional_secret raw)
    (req : OutboundRequest)
    (hreq : deliver_request hmacSha256 webhook_body webhook payload = some req) :
    (req.signature.isSome ↔
      (webhook.platform = "generic" ∧ webhook.secret ≠ none)) ∧
    (∀ secret, webhook.secret = some secret → webhook.platform = "generic" →
      req.signature = some ("sha256=" ++ hexBytes (hmacSha256 secret req.body))) ∧
    webhook_body webhook payload = some req.body ∧
    (∀ sig, req.signature = some sig →
      ∃ hex, sig = "sha256=" ++ hex ∧
        ∀ c ∈ hex.data, c ∈ "0123456789abcdef".data) := by
  obtain ⟨body, hbody, hf⟩ := Option.map_eq_some'.mp hreq
  have hsign := normalized_secret_signing webhook raw hnorm
  rcases hw : webhook.secret with _ | s
  · have hnone : signing_secret webhook = none := by rw [hsign, hw]
    have hreq' : req = ⟨webhook.url, "application/json", none, body⟩ := by
      rw [← hf]
      by_cases hp : webhook.platform = "generic"
      · simp [hp, hnone]
      · simp [hp]
    subst hreq'
    refine ⟨by simp, ?_, hbody, ?_⟩
    · intro secret hsec
      exact absurd hsec (by simp)
    · intro sig hsig
      exact absurd hsig (by simp)
  · have hsome : signing_secret webhook = some s := by rw [hsign, hw]
    by_cases hp : webhook.platform = "generic"
    · have hreq' : req = ⟨webhook.url, "application/json",
          some (hmac_signature hmacSha256 s body), body⟩ := by
        rw [← hf]
        simp [hp, hsome, Option.elim]
      subst hreq'
      refine ⟨by simp [hp, hw], ?_, hbody, ?_⟩
      · intro secret hsec _
        cases hsec
        rfl
      · intro sig hsig
        rw [Option.some.injEq] at hsig
        exact ⟨hexBytes (hmacSha256 s body), hsig.symm ▸ rfl,
          hexBytes_chars _⟩
    · have hreq' : req = ⟨webhook.url, "application/json", none, body⟩ := by
        rw [← hf]
        simp [hp]
      subst hreq'
      refine ⟨by simp [hp], ?_, hbody, ?_⟩
      · intro secret _ hplat
        exact absurd hplat hp
      · intro sig hsig
        exact absurd hsig (by simp)

/-- Concrete webhook for witnesses: a `generic` webhook with secret
`s3cret`. -/
def wWebhook : WebhookRecord :=
  ⟨"wh01", "proj01", "hook", "https://example.invalid/hook", "generic",
    "[\x22task.created\x22]", some "s3cret", 1, "2024-01-01T00:00:00Z",
    "2024-01-01T00:00:00Z"⟩

/-- Concrete payload for witnesses (detail type instantiated at `String`). -/
def wPayload : WebhookPayload String :=
  ⟨"task.created", "ROADMAP", none, none, none, "human", "d",
    "2024-01-01T00:00:00Z"⟩

/-- Witness for C3's theorem: with a body model returning bytes `[1, 2]` and
a MAC model returning `[0, 255]`, the built request for `wWebhook` carries
signature `sha256=00ff` over exactly those body bytes. -/
theorem deliver_request_signature_witness :
    (wWebhook.secret = normalize_optional_secret (some "s3cret")) ∧
    (deliver_request (fun _ _ => [0, 255]) (fun _ _ => some [1, 2]) wWebhook
      wPayload =
      some ⟨"https://example.invalid/hook", "application/json",
        some "sha256=00ff", [1, 2]⟩) ∧
    ((some "sha256=00ff" : Option String).isSome ↔
      (wWebhook.platform = "generic" ∧ wWebhook.secret ≠ none)) := by
  have hnorm : wWebhook.secret = normalize_optional_secret (some "s3cret") := by
    decide
  have hreq : deliver_request (fun _ _ => [0, 255]) (fun _ _ => some [1, 2])
      wWebhook wPayload =
      some ⟨"https://example.invalid/hook", "application/json",
        some "sha256=00ff", [1, 2]⟩ := by
    decide
  exact ⟨hnorm, hreq,
    (deliver_request_signature (fun _ _ => [0, 255]) (fun _ _ => some [1, 2])
      wWebhook wPayload (some "s3cret") hnorm _ hreq).1⟩

/-! ## Webhook dispatcher loop and retry queue (`src/webhooks/mod.rs`) -/

/-- `MAX_RETRY_QUEUE` (`src/webhooks/mod.rs`). -/
def MAX_RETRY_QUEUE : Nat := 512

/-- `RETRY_DELAY_SECONDS` (`src/webhooks/mod.rs`). Instants (`std::time::
Instant`) are modelled as rational seconds. -/
def RETRY_DELAY_SECONDS : ℚ := 30

/-- `PendingDelivery` (`src/webhooks/mod.rs`): an in-memory retry entry. -/
structure PendingDelivery (J : Type) where
  webhook : WebhookRecord
  payload : WebhookPayload J
  due_at : ℚ
deriving DecidableEq

/-- One delivery attempt (one `deliver_webhook` HTTP POST) identified by the
webhook record and the rendered payload. -/
abbrev Attempt (J : Type) := WebhookRecord × WebhookPayload J

/-- `schedule_retry` (`src/webhooks/mod.rs`): enqueue one retry entry due
`RETRY_DELAY_SECONDS` later, unless the queue is full, in which case the
retry is dropped (logged, no error). -/
def schedule_retry {J : Type} (retry_queue : List (PendingDelivery J))
    (webhook : WebhookRecord) (payload : WebhookPayload J) (now : ℚ) :
    List (PendingDelivery J) :=
  if MAX_RETRY_QUEUE ≤ retry_queue.length then retry_queue
  else retry_queue ++ [⟨webhook, payload, now + RETRY_DELAY_SECONDS⟩]

/-- `process_retry_queue` (`src/webhooks/mod.rs`): drain the queue; entries
not yet due (`due_at > now`) are kept in order, due entries are attempted
once and removed regardless of the outcome. Returns the attempts and the
remaining queue. -/
def process_retry_queue {J : Type} (retry_queue : List (PendingDelivery J))
    (now : ℚ) : List (Attempt J) × List (PendingDelivery J) :=
  ((retry_queue.filter fun pending => decide (pending.due_at ≤ now)).map
      fun pending => (pending.webhook, pending.payload),
    retry_queue.filter fun pending => decide (now < pending.due_at))

/-- The inner loop of `dispatch_event` (`src/webhooks/mod.rs`) over the
project's active webhooks: skip unsubscribed webhooks, attempt each
subscribed one, and schedule exactly one retry for each failed attempt
(`fails` is the delivery-outcome oracle: network error or non-2xx). -/
def dispatch_to_webhooks {J : Type}
    (fromStrVec : String → Option (List String))
    (fails : WebhookRecord → WebhookPayload J → Bool) (now : ℚ)
    (payload : WebhookPayload J) (webhooks : List WebhookRecord)
    (retry_queue : List (PendingDelivery J)) :
    List (Attempt J) × List (PendingDelivery J) :=
  match webhooks with
  | [] => ([], retry_queue)
  | webhook :: rest =>
    if webhook_subscribed_to_event fromStrVec webhook payload.event then
      let queue1 := if fails webhook payload then
          schedule_retry retry_queue webhook payload now
        else retry_queue
      let next := dispatch_to_webhooks fromStrVec fails now payload rest queue1
      ((webhook, payload) :: next.1, next.2)
    else dispatch_to_webhooks fromStrVec fails now payload rest retry_queue

/-- `dispatch_event` (`src/webhooks/mod.rs`): render the payload and deliver
to the project's active webhooks (`subsOf` models
`list_active_project_webhooks`). -/
def dispatch_event {J : Type} (jm : JsonModel J)
    (fromStrVec : String → Option (List String))
    (subsOf : String → List WebhookRecord)
    (fails : WebhookRecord → WebhookPayload J → Bool) (now : ℚ)
    (retry_queue : List (PendingDelivery J)) (event : SystemEventRecord) :
    List (Attempt J) × List (PendingDelivery J) :=
  let payload := payload_from_system_event jm event
  dispatch_to_webhooks fromStrVec fails now payload (subsOf payload.project)
    retry_queue

/-- The body of the per-event loop of `run_dispatcher`: dispatch one event
against the current retry queue, accumulating the delivery attempts. -/
def dispatch_fold_step {J : Type} (jm : JsonModel J)
    (fromStrVec : String → Option (List String))
    (subsOf : String → List WebhookRecord)
    (fails : WebhookRecord → WebhookPayload J → Bool) (now : ℚ)
    (acc : List (Attempt J) × List (PendingDelivery J))
    (event : SystemEventRecord) :
    List (Attempt J) × List (PendingDelivery J) :=
  let next := dispatch_event jm fromStrVec subsOf fails now acc.2 event
  (acc.1 ++ next.1, next.2)

/-- One tick of `run_dispatcher` (`src/webhooks/mod.rs`): the retry sweep
runs first, then the tick's batch of new events is dispatched in order. -/
def dispatcher_tick {J : Type} (jm : JsonModel J)
    (fromStrVec : String → Option (List String))
    (subsOf : String → List WebhookRecord)
    (fails : WebhookRecord → WebhookPayload J → Bool) (now : ℚ)
    (retry_queue : List (PendingDelivery J))
    (events : List SystemEventRecord) :
    List (Attempt J) × List (PendingDelivery J) :=
  let retried := process_retry_queue retry_queue now
  let step := events.foldl (dispatch_fold_step jm fromStrVec subsOf fails now)
    (([] : List (Attempt J)), retried.2)
  (retried.1 ++ step.1, step.2)

/-- A dispatcher run: a sequence of ticks, each with its instant and the
batch of new events it polls. -/
def dispatcher_run {J : Type} (jm : JsonModel J)
    (fromStrVec : String → Option (List String))
    (subsOf : String → List WebhookRecord)
    (fails : WebhookRecord → WebhookPayload J → Bool)
    (ticks : List (ℚ × List SystemEventRecord))
    (retry_queue : List (PendingDelivery J)) :
    List (Attempt J) × List (PendingDelivery J) :=
  match ticks with
  | [] => ([], retry_queue)
  | tick :: rest =>
    let first := dispatcher_tick jm fromStrVec subsOf fails tick.1 retry_queue
      tick.2
    let next := dispatcher_run jm fromStrVec subsOf fails rest first.2
    (first.1 ++ next.1, next.2)

theorem dispatch_attempts_subscribed {J : Type}
    (fromStrVec : String → Option (List String))
    (fails : WebhookRecord → WebhookPayload J → Bool) (now : ℚ)
    (payload : WebhookPayload J) :
    ∀ (webhooks : List WebhookRecord) (q : List (PendingDelivery J))
      (a : Attempt J),
      a ∈ (dispatch_to_webhooks fromStrVec fails now payload webhooks q).1 →
      webhook_subscribed_to_event fromStrVec a.1 payload.event = true ∧
        a.2 = payload := by
  intro webhooks
  induction webhooks with
  | nil =>
    intro q a ha
    simp [dispatch_to_webhooks] at ha
  | cons w rest ih =>
    intro q a ha
    by_cases h : webhook_subscribed_to_event fromStrVec w payload.event
    · rw [dispatch_to_webhooks] at ha
      rw [if_pos h] at ha
      rcases List.mem_cons.mp ha with h' | h'
      · subst h'
        exact ⟨h, rfl⟩
      · exact ih _ a h'
    · rw [dispatch_to_webhooks] at ha
      rw [if_neg h] at ha
      exact ih _ a ha

theorem dispatch_skips_unsubscribed {J : Type}
    (fromStrVec : String → Option (List String))
    (fails : WebhookRecord → WebhookPayload J → Bool) (now : ℚ)
    (payload : WebhookPayload J) (w : WebhookRecord)
    (hw : webhook_subscribed_to_event fromStrVec w payload.event = false) :
    ∀ (ws1 ws2 : List WebhookRecord) (q : List (PendingDelivery J)),
      dispatch_to_webhooks fromStrVec fails now payload (ws1 ++ w :: ws2) q =
        dispatch_to_webhooks fromStrVec fails now payload (ws1 ++ ws2) q := by
  intro ws1
  induction ws1 with
  | nil =>
    intro ws2 q
    rw [List.nil_append, List.nil_append, dispatch_to_webhooks, if_neg (by
      rw [hw]; exact Bool.false_ne_true)]
  | cons w' rest ih =>
    intro ws2 q
    rw [List.cons_append, List.cons_append, dispatch_to_webhooks,
      dispatch_to_webhooks]
    by_cases h : webhook_subscribed_to_event fromStrVec w' payload.event
    · rw [if_pos h, if_pos h]
      simp only [ih]
    · rw [if_neg h, if_neg h]
      exact ih ws2 q

/-- C7: during dispatch of any event, a webhook whose parsed event set does
not contain the event's action never receives a delivery attempt for it, a
webhook whose stored event set fails to parse is likewise skipped (treated
as not subscribed), and skipping it leaves the dispatch of the remaining
webhooks of the batch — attempts and retry queue alike — unchanged. -/
theorem dispatch_event_filtering {J : Type}
    (fromStrVec : String → Option (List String))
    (fails : WebhookRecord → WebhookPayload J → Bool) (now : ℚ)
    (payload : WebhookPayload J) (w : WebhookRecord)
    (ws1 ws2 : List WebhookRecord) (q : List (PendingDelivery J)) :
    (∀ err, parse_webhook_events fromStrVec w.events = .error err →
      webhook_subscribed_to_event fromStrVec w payload.event = false) ∧
    (∀ events, parse_webhook_events fromStrVec w.events = .ok events →
      payload.event ∉ events →
      webhook_subscribed_to_event fromStrVec w payload.event = false) ∧
    (webhook_subscribed_to_event fromStrVec w payload.event = false →
      (w, payload) ∉
        (dispatch_to_webhooks fromStrVec fails now payload
          (ws1 ++ w :: ws2) q).1 ∧
      dispatch_to_webhooks fromStrVec fails now payload (ws1 ++ w :: ws2) q =
        dispatch_to_webhooks fromStrVec fails now payload (ws1 ++ ws2) q) := by
  refine ⟨?_, ?_, ?_⟩
  · intro err herr
    rw [webhook_subscribed_to_event, herr]
  · intro events hok hmem
    rw [webhook_subscribed_to_event, hok]
    simp only [List.any_eq_false, decide_eq_true_eq]
    intro c hc hceq
    exact hmem (hceq ▸ hc)
  · intro hw
    have hskip := dispatch_skips_unsubscribed fromStrVec fails now payload w hw
      ws1 ws2 q
    refine ⟨?_, hskip⟩
    rw [hskip]
    intro hmem
    have := (dispatch_attempts_subscribed fromStrVec fails now payload
      (ws1 ++ ws2) q _ hmem).1
    rw [hw] at this
    exact Bool.false_ne_true this

/-- Witness for C7's theorem: with an event-set decoder that fails on
`wWebhook`'s stored set, the webhook is skipped and the dispatch of the
remaining webhooks is unchanged. -/
theorem dispatch_event_filtering_witness :
    parse_webhook_events (fun _ => none) wWebhook.events = .error .internal ∧
    webhook_subscribed_to_event (fun _ => none) wWebhook "task.created" = false ∧
    (wWebhook, wPayload) ∉
      (dispatch_to_webhooks (J := String) (fun _ => none) (fun _ _ => true) 0
        wPayload ([] ++ wWebhook :: []) []).1 := by
  refine ⟨rfl, ?_, ?_⟩
  · exact (dispatch_event_filtering (J := String) (fun _ => none)
      (fun _ _ => true) 0 wPayload wWebhook [] [] []).1 .internal rfl
  · exact ((dispatch_event_filtering (J := String) (fun _ => none)
      (fun _ _ => true) 0 wPayload wWebhook [] [] []).2.2 rfl).1

/-- Number of delivery attempts in a trace for exactly the pair `(w, p)`. -/
def attemptCount {J : Type} [DecidableEq J] (attempts : List (Attempt J))
    (w : WebhookRecord) (p : WebhookPayload J) : Nat :=
  (attempts.filter fun a => decide (a = (w, p))).length

/-- Number of retry-queue entries for the pair `(w, p)`. -/
def queueCount {J : Type} [DecidableEq J] (q : List (PendingDelivery J))
    (w : WebhookRecord) (p : WebhookPayload J) : Nat :=
  (q.filter fun pending =>
    decide (pending.webhook = w ∧ pending.payload = p)).length

/-- Number of events across a run's batches that render to payload `p`. -/
def eventCount {J : Type} [DecidableEq J] (jm : JsonModel J)
    (ticks : List (ℚ × List SystemEventRecord)) (p : WebhookPayload J) : Nat :=
  ((ticks.map Prod.snd).flatten.filter fun e =>
    decide (payload_from_system_event jm e = p)).length

/-- Number of occurrences of the record `w` in a webhook list. -/
def webhookCount (ws : List WebhookRecord) (w : WebhookRecord) : Nat :=
  (ws.filter fun candidate => decide (candidate = w)).length

theorem length_filter_split {α : Type} (P D : α → Bool) (l : List α) :
    (l.filter P).length =
      (l.filter fun a => P a && D a).length +
        (l.filter fun a => P a && !D a).length := by
  induction l with
  | nil => rfl
  | cons a l ih =>
    by_cases hP : P a = true
    · by_cases hD : D a = true
      · simp [List.filter_cons, hP, hD, ih]
        try omega
      · simp only [Bool.not_eq_true] at hD
        simp [List.filter_cons, hP, hD, ih]
        try omega
    · simp only [Bool.not_eq_true] at hP
      simp [List.filter_cons, hP, ih]
      try omega

theorem queueCount_append_one {J : Type} [DecidableEq J]
    (q : List (PendingDelivery J)) (entry : PendingDelivery J)
    (w : WebhookRecord) (p : WebhookPayload J) :
    queueCount (q ++ [entry]) w p =
      queueCount q w p +
        (if entry.webhook = w ∧ entry.payload = p then 1 else 0) := by
  rw [queueCount, List.filter_append, List.length_append, queueCount]
  by_cases h : entry.webhook = w ∧ entry.payload = p
  · simp [h]
  · simp [h]

theorem schedule_retry_queueCount {J : Type} [DecidableEq J]
    (q : List (PendingDelivery J)) (w' : WebhookRecord)
    (p' : WebhookPayload J) (now : ℚ) (w : WebhookRecord)
    (p : WebhookPayload J) :
    queueCount (schedule_retry q w' p' now) w p ≤
      queueCount q w p + (if w' = w ∧ p' = p then 1 else 0) := by
  rw [schedule_retry]
  by_cases hfull : MAX_RETRY_QUEUE ≤ q.length
  · rw [if_pos hfull]
    omega
  · rw [if_neg hfull, queueCount_append_one]
    try omega

theorem schedule_retry_length {J : Type} (q : List (PendingDelivery J))
    (w : WebhookRecord) (p : WebhookPayload J) (now : ℚ)
    (h : q.length ≤ MAX_RETRY_QUEUE) :
    (schedule_retry q w p now).length ≤ MAX_RETRY_QUEUE := by
  rw [schedule_retry]
  by_cases hfull : MAX_RETRY_QUEUE ≤ q.length
  · rw [if_pos hfull]
    exact h
  · rw [if_neg hfull, List.length_append]
    simp only [List.length_cons, List.length_nil]
    omega

theorem process_retry_queue_counts {J : Type} [DecidableEq J]
    (q : List (PendingDelivery J)) (now : ℚ) (w : WebhookRecord)
    (p : WebhookPayload J) :
    attemptCount (process_retry_queue q now).1 w p +
        queueCount (process_retry_queue q now).2 w p =
      queueCount q w p := by
  rw [process_retry_queue, attemptCount, queueCount, queueCount]
  rw [List.filter_map]
  rw [List.length_map]
  have h1 : (q.filter fun pending => decide (pending.due_at ≤ now)).filter
        ((fun a : Attempt J => decide (a = (w, p))) ∘
          fun pending => (pending.webhook, pending.payload)) =
      q.filter fun a =>
        (decide (a.webhook = w ∧ a.payload = p)) && decide (a.due_at ≤ now) := by
    rw [List.filter_filter]
    refine List.filter_congr ?_
    intro x _
    simp [Prod.ext_iff]
  have h2 : (q.filter fun pending => decide (now < pending.due_at)) =
      q.filter fun a =>
        (decide (a.webhook = w ∧ a.payload = p) ||
          !decide (a.webhook = w ∧ a.payload = p)) &&
          !decide (a.due_at ≤ now) := by
    refine List.filter_congr ?_
    intro x _
    by_cases hd : x.due_at ≤ now
    · have hnl : ¬ now < x.due_at := not_lt.mpr hd
      by_cases hx : x.webhook = w ∧ x.payload = p <;> simp [hd, hnl, hx]
    · have hl : now < x.due_at := not_le.mp hd
      by_cases hx : x.webhook = w ∧ x.payload = p <;> simp [hd, hl, hx]
  rw [h1]
  have h3 : ((q.filter fun a =>
        (decide (a.webhook = w ∧ a.payload = p) ||
          !decide (a.webhook = w ∧ a.payload = p)) &&
          !decide (a.due_at ≤ now)).filter fun pending =>
        decide (pending.webhook = w ∧ pending.payload = p)) =
      q.filter fun a =>
        (decide (a.webhook = w ∧ a.payload = p)) && !decide (a.due_at ≤ now) := by
    rw [List.filter_filter]
    refine List.filter_congr ?_
    intro x _
    by_cases hx : x.webhook = w ∧ x.payload = p
    · simp [hx]
    · simp [hx]
  rw [h2, h3]
  exact (length_filter_split (fun a => decide (a.webhook = w ∧ a.payload = p))
    (fun a => decide (a.due_at ≤ now)) q).symm

theorem dispatch_to_webhooks_pair_bound {J : Type} [DecidableEq J]
    (fromStrVec : String → Option (List String))
    (fails : WebhookRecord → WebhookPayload J → Bool) (now : ℚ)
    (payload : WebhookPayload J) (w : WebhookRecord) (p : WebhookPayload J) :
    ∀ (ws : List WebhookRecord) (q : List (PendingDelivery J)),
      attemptCount (dispatch_to_webhooks fromStrVec fails now payload ws q).1
          w p +
        queueCount (dispatch_to_webhooks fromStrVec fails now payload ws q).2
          w p ≤
      queueCount q w p + 2 * (if payload = p then webhookCount ws w else 0) := by
  intro ws
  induction ws with
  | nil =>
    intro q
    rw [dispatch_to_webhooks]
    simp [attemptCount]
  | cons w' rest ih =>
    intro q
    rw [dispatch_to_webhooks]
    by_cases hsub : webhook_subscribed_to_event fromStrVec w' payload.event
    · rw [if_pos hsub]
      dsimp only
      set Q := if fails w' payload = true then schedule_retry q w' payload now
        else q with hQ
      have hqc : queueCount Q w p ≤
          queueCount q w p + (if w' = w ∧ payload = p then 1 else 0) := by
        rw [hQ]
        by_cases hf : fails w' payload = true
        · rw [if_pos hf]
          exact schedule_retry_queueCount q w' payload now w p
        · rw [if_neg hf]
          exact Nat.le_add_right _ _
      have hrec := ih Q
      have hac : attemptCount ((w', payload) ::
            (dispatch_to_webhooks fromStrVec fails now payload rest Q).1) w p =
          (if w' = w ∧ payload = p then 1 else 0) +
            attemptCount
              (dispatch_to_webhooks fromStrVec fails now payload rest Q).1 w p := by
        rw [attemptCount, List.filter_cons, attemptCount]
        by_cases h : w' = w ∧ payload = p
        · simp [Prod.ext_iff, h.1, h.2]
          try omega
        · have hne : ¬ ((w', payload) = (w, p)) := by
            simp only [Prod.mk.injEq]
            exact h
          simp [hne, h]
          try omega
      have hwc : webhookCount (w' :: rest) w =
          (if w' = w then 1 else 0) + webhookCount rest w := by
        rw [webhookCount, List.filter_cons, webhookCount]
        by_cases h : w' = w
        · simp [h]
          try omega
        · simp [h]
          try omega
      rw [hac, hwc]
      by_cases hpp : payload = p
      · by_cases hww : w' = w
        · rw [if_pos (⟨hww, hpp⟩ : w' = w ∧ payload = p), if_pos hpp,
            if_pos hww]
          rw [if_pos (⟨hww, hpp⟩ : w' = w ∧ payload = p)] at hqc
          rw [if_pos hpp] at hrec
          omega
        · rw [if_neg (fun hc => hww hc.1 : ¬ (w' = w ∧ payload = p)),
            if_pos hpp, if_neg hww]
          rw [if_neg (fun hc => hww hc.1 : ¬ (w' = w ∧ payload = p))] at hqc
          rw [if_pos hpp] at hrec
          omega
      · rw [if_neg (fun hc => hpp hc.2 : ¬ (w' = w ∧ payload = p)),
          if_neg hpp]
        rw [if_neg (fun hc => hpp hc.2 : ¬ (w' = w ∧ payload = p))] at hqc
        rw [if_neg hpp] at hrec
        omega
    · rw [if_neg hsub]
      have hrec := ih q
      have hwc : webhookCount rest w ≤ webhookCount (w' :: rest) w := by
        rw [webhookCount, webhookCount, List.filter_cons]
        by_cases h : w' = w
        · simp [h]
          try omega
        · simp [h]
          try omega
      by_cases hpp : payload = p
      · rw [if_pos hpp]
        rw [if_pos hpp] at hrec
        omega
      · rw [if_neg hpp]
        rw [if_neg hpp] at hrec
        omega

theorem dispatch_to_webhooks_length {J : Type}
    (fromStrVec : String → Option (List String))
    (fails : WebhookRecord → WebhookPayload J → Bool) (now : ℚ)
    (payload : WebhookPayload J) :
    ∀ (ws : List WebhookRecord) (q : List (PendingDelivery J)),
      q.length ≤ MAX_RETRY_QUEUE →
      (dispatch_to_webhooks fromStrVec fails now payload ws q).2.length ≤
        MAX_RETRY_QUEUE := by
  intro ws
  induction ws with
  | nil =>
    intro q hq
    rw [dispatch_to_webhooks]
    exact hq
  | cons w' rest ih =>
    intro q hq
    rw [dispatch_to_webhooks]
    by_cases hsub : webhook_subscribed_to_event fromStrVec w' payload.event
    · rw [if_pos hsub]
      dsimp only
      refine ih _ ?_
      by_cases hf : fails w' payload = true
      · rw [if_pos hf]
        exact schedule_retry_length q w' payload now hq
      · rw [if_neg hf]
        exact hq
    · rw [if_neg hsub]
      exact ih q hq

theorem attemptCount_append {J : Type} [DecidableEq J]
    (l1 l2 : List (Attempt J)) (w : WebhookRecord) (p : WebhookPayload J) :
    attemptCount (l1 ++ l2) w p = attemptCount l1 w p + attemptCount l2 w p := by
  rw [attemptCount, attemptCount, attemptCount, List.filter_append,
    List.length_append]

theorem dispatch_fold_pair_bound {J : Type} [DecidableEq J] (jm : JsonModel J)
    (fromStrVec : String → Option (List String))
    (subsOf : String → List WebhookRecord)
    (fails : WebhookRecord → WebhookPayload J → Bool) (now : ℚ)
    (w : WebhookRecord) (p : WebhookPayload J)
    (hsubs : ∀ slug, webhookCount (subsOf slug) w ≤ 1) :
    ∀ (events : List SystemEventRecord)
      (acc : List (Attempt J) × List (PendingDelivery J)),
      attemptCount (events.foldl
          (dispatch_fold_step jm fromStrVec subsOf fails now) acc).1 w p +
        queueCount (events.foldl
          (dispatch_fold_step jm fromStrVec subsOf fails now) acc).2 w p ≤
      attemptCount acc.1 w p + queueCount acc.2 w p +
        2 * (events.filter fun e =>
          decide (payload_from_system_event jm e = p)).length := by
  intro events
  induction events with
  | nil =>
    intro acc
    simp [List.foldl_nil, List.filter_nil]
  | cons e rest ih =>
    intro acc
    rw [List.foldl_cons]
    have hstep := ih (dispatch_fold_step jm fromStrVec subsOf fails now acc e)
    have ha : attemptCount
        (dispatch_fold_step jm fromStrVec subsOf fails now acc e).1 w p =
        attemptCount acc.1 w p +
          attemptCount
            (dispatch_event jm fromStrVec subsOf fails now acc.2 e).1 w p :=
      attemptCount_append _ _ _ _
    have hq : queueCount
        (dispatch_fold_step jm fromStrVec subsOf fails now acc e).2 w p =
        queueCount
          (dispatch_event jm fromStrVec subsOf fails now acc.2 e).2 w p := rfl
    have hdis : attemptCount
        (dispatch_event jm fromStrVec subsOf fails now acc.2 e).1 w p +
          queueCount
            (dispatch_event jm fromStrVec subsOf fails now acc.2 e).2 w p ≤
        queueCount acc.2 w p +
          2 * (if payload_from_system_event jm e = p then
            webhookCount (subsOf (payload_from_system_event jm e).project) w
            else 0) :=
      dispatch_to_webhooks_pair_bound fromStrVec fails now
        (payload_from_system_event jm e) w p
        (subsOf (payload_from_system_event jm e).project) acc.2
    have hone : (if payload_from_system_event jm e = p then
        webhookCount (subsOf (payload_from_system_event jm e).project) w
        else 0) ≤ (if payload_from_system_event jm e = p then 1 else 0) := by
      by_cases hpp : payload_from_system_event jm e = p
      · rw [if_pos hpp, if_pos hpp]
        exact hsubs _
      · rw [if_neg hpp, if_neg hpp]
    have hcnt : ((e :: rest).filter fun e' =>
        decide (payload_from_system_event jm e' = p)).length =
        (if payload_from_system_event jm e = p then 1 else 0) +
          (rest.filter fun e' =>
            decide (payload_from_system_event jm e' = p)).length := by
      rw [List.filter_cons]
      by_cases hpp : payload_from_system_event jm e = p
      · simp [hpp]
        try omega
      · simp [hpp]
        try omega
    rw [hcnt]
    omega

theorem dispatch_fold_length {J : Type} (jm : JsonModel J)
    (fromStrVec : String → Option (List String))
    (subsOf : String → List WebhookRecord)
    (fails : WebhookRecord → WebhookPayload J → Bool) (now : ℚ) :
    ∀ (events : List SystemEventRecord)
      (acc : List (Attempt J) × List (PendingDelivery J)),
      acc.2.length ≤ MAX_RETRY_QUEUE →
      ((events.foldl (dispatch_fold_step jm fromStrVec subsOf fails now)
        acc).2).length ≤ MAX_RETRY_QUEUE := by
  intro events
  induction events with
  | nil =>
    intro acc hacc
    rw [List.foldl_nil]
    exact hacc
  | cons e rest ih =>
    intro acc hacc
    rw [List.foldl_cons]
    refine ih _ ?_
    exact dispatch_to_webhooks_length fromStrVec fails now _ _ _ hacc

theorem dispatcher_tick_pair_bound {J : Type} [DecidableEq J]
    (jm : JsonModel J) (fromStrVec : String → Option (List String))
    (subsOf : String → List WebhookRecord)
    (fails : WebhookRecord → WebhookPayload J → Bool) (now : ℚ)
    (w : WebhookRecord) (p : WebhookPayload J)
    (hsubs : ∀ slug, webhookCount (subsOf slug) w ≤ 1)
    (q : List (PendingDelivery J)) (events : List SystemEventRecord) :
    attemptCount (dispatcher_tick jm fromStrVec subsOf fails now q events).1
        w p +
      queueCount (dispatcher_tick jm fromStrVec subsOf fails now q events).2
        w p ≤
    queueCount q w p + 2 * (events.filter fun e =>
      decide (payload_from_system_event jm e = p)).length := by
  rw [dispatcher_tick]
  dsimp only
  rw [attemptCount_append]
  have hproc := process_retry_queue_counts q now w p
  have hfold := dispatch_fold_pair_bound jm fromStrVec subsOf fails now w p
    hsubs events ([], (process_retry_queue q now).2)
  rw [show attemptCount (([], (process_retry_queue q now).2) :
      List (Attempt J) × List (PendingDelivery J)).1 w p = 0 from rfl,
    show queueCount (([], (process_retry_queue q now).2) :
      List (Attempt J) × List (PendingDelivery J)).2 w p =
      queueCount (process_retry_queue q now).2 w p from rfl] at hfold
  omega

theorem dispatcher_run_pair_bound {J : Type} [DecidableEq J]
    (jm : JsonModel J) (fromStrVec : String → Option (List String))
    (subsOf : String → List WebhookRecord)
    (fails : WebhookRecord → WebhookPayload J → Bool)
    (w : WebhookRecord) (p : WebhookPayload J)
    (hsubs : ∀ slug, webhookCount (subsOf slug) w ≤ 1) :
    ∀ (ticks : List (ℚ × List SystemEventRecord))
      (q : List (PendingDelivery J)),
      attemptCount (dispatcher_run jm fromStrVec subsOf fails ticks q).1 w p +
        queueCount (dispatcher_run jm fromStrVec subsOf fails ticks q).2 w p ≤
      queueCount q w p + 2 * eventCount jm ticks p := by
  intro ticks
  induction ticks with
  | nil =>
    intro q
    rw [dispatcher_run]
    simp [attemptCount, eventCount]
  | cons tick rest ih =>
    intro q
    rw [dispatcher_run]
    dsimp only
    rw [attemptCount_append]
    have htick := dispatcher_tick_pair_bound jm fromStrVec subsOf fails tick.1
      w p hsubs q tick.2
    have hrec := ih (dispatcher_tick jm fromStrVec subsOf fails tick.1 q
      tick.2).2
    have hcnt : eventCount jm (tick :: rest) p =
        (tick.2.filter fun e =>
          decide (payload_from_system_event jm e = p)).length +
          eventCount jm rest p := by
      rw [eventCount, eventCount, List.map_cons, List.flatten_cons,
        List.filter_append, List.length_append]
    rw [hcnt]
    omega

theorem length_filter_not {α : Type} (D : α → Bool) (l : List α) :
    (l.filter D).length + (l.filter fun a => !D a).length = l.length := by
  induction l with
  | nil => rfl
  | cons a l ih =>
    by_cases h : D a = true
    · simp [List.filter_cons, h, ih]
      try omega
    · simp only [Bool.not_eq_true] at h
      simp [List.filter_cons, h, ih]
      try omega

theorem dispatcher_tick_length {J : Type} (jm : JsonModel J)
    (fromStrVec : String → Option (List String))
    (subsOf : String → List WebhookRecord)
    (fails : WebhookRecord → WebhookPayload J → Bool) (now : ℚ)
    (q : List (PendingDelivery J)) (events : List SystemEventRecord)
    (hq : q.length ≤ MAX_RETRY_QUEUE) :
    (dispatcher_tick jm fromStrVec subsOf fails now q events).2.length ≤
      MAX_RETRY_QUEUE := by
  rw [dispatcher_tick]
  dsimp only
  refine dispatch_fold_length jm fromStrVec subsOf fails now events _ ?_
  calc ((( [] : List (Attempt J)), (process_retry_queue q now).2) :
        List (Attempt J) × List (PendingDelivery J)).2.length
      = (q.filter fun pending => decide (now < pending.due_at)).length := rfl
    _ ≤ q.length := List.length_filter_le _ q
    _ ≤ MAX_RETRY_QUEUE := hq

theorem dispatcher_run_length {J : Type} (jm : JsonModel J)
    (fromStrVec : String → Option (List String))
    (subsOf : String → List WebhookRecord)
    (fails : WebhookRecord → WebhookPayload J → Bool) :
    ∀ (ticks : List (ℚ × List SystemEventRecord))
      (q : List (PendingDelivery J)), q.length ≤ MAX_RETRY_QUEUE →
      (dispatcher_run jm fromStrVec subsOf fails ticks q).2.length ≤
        MAX_RETRY_QUEUE := by
  intro ticks
  induction ticks with
  | nil =>
    intro q hq
    rw [dispatcher_run]
    exact hq
  | cons tick rest ih =>
    intro q hq
    rw [dispatcher_run]
    dsimp only
    exact ih _ (dispatcher_tick_length jm fromStrVec subsOf fails tick.1 q
      tick.2 hq)

/-- C4: webhook delivery failures schedule exactly one retry entry due 30
seconds later provided the queue holds fewer than 512 entries; a full queue
drops the retry without error; a due retry is attempted once and removed
regardless of outcome; the retry queue length never exceeds 512 through any
tick; and over a whole dispatcher run from an empty queue in which the
event/webhook pair is dispatched at most once (the cursor guarantees each
event is polled once; webhook ids are unique per project), the pair is
attempted at most twice. -/
theorem webhook_retry_policy {J : Type} [DecidableEq J] (jm : JsonModel J)
    (fromStrVec : String → Option (List String))
    (subsOf : String → List WebhookRecord)
    (fails : WebhookRecord → WebhookPayload J → Bool)
    (w : WebhookRecord) (p : WebhookPayload J)
    (ticks : List (ℚ × List SystemEventRecord))
    (hsubs : ∀ slug, webhookCount (subsOf slug) w ≤ 1)
    (honce : eventCount jm ticks p ≤ 1) :
    (∀ (q : List (PendingDelivery J)) (now : ℚ),
      q.length < MAX_RETRY_QUEUE →
      schedule_retry q w p now = q ++ [⟨w, p, now + RETRY_DELAY_SECONDS⟩]) ∧
    (∀ (q : List (PendingDelivery J)) (now : ℚ),
      MAX_RETRY_QUEUE ≤ q.length → schedule_retry q w p now = q) ∧
    RETRY_DELAY_SECONDS = 30 ∧ MAX_RETRY_QUEUE = 512 ∧
    (∀ (q : List (PendingDelivery J)) (now : ℚ),
      (process_retry_queue q now).1 =
        (q.filter fun pending => decide (pending.due_at ≤ now)).map
          (fun pending => (pending.webhook, pending.payload)) ∧
      (∀ pending ∈ (process_retry_queue q now).2, now < pending.due_at) ∧
      (process_retry_queue q now).1.length +
        (process_retry_queue q now).2.length = q.length) ∧
    (∀ (q : List (PendingDelivery J)) (now : ℚ)
      (events : List SystemEventRecord), q.length ≤ MAX_RETRY_QUEUE →
      (dispatcher_tick jm fromStrVec subsOf fails now q events).2.length ≤
        MAX_RETRY_QUEUE) ∧
    (dispatcher_run jm fromStrVec subsOf fails ticks []).2.length ≤
      MAX_RETRY_QUEUE ∧
    attemptCount (dispatcher_run jm fromStrVec subsOf fails ticks []).1 w p ≤
      2 := by
  refine ⟨?_, ?_, rfl, rfl, ?_, ?_, ?_, ?_⟩
  · intro q now h
    rw [schedule_retry, if_neg (Nat.not_le.mpr h)]
  · intro q now h
    rw [schedule_retry, if_pos h]
  · intro q now
    refine ⟨rfl, ?_, ?_⟩
    · intro pending hmem
      have := (List.mem_filter.mp hmem).2
      exact of_decide_eq_true this
    · rw [process_retry_queue]
      dsimp only
      rw [List.length_map]
      have hcongr : (q.filter fun pending => decide (now < pending.due_at)) =
          (q.filter fun pending => !decide (pending.due_at ≤ now)) := by
        refine List.filter_congr ?_
        intro x _
        by_cases hd : x.due_at ≤ now
        · simp [hd, not_lt.mpr hd]
        · simp [hd, not_le.mp hd]
      rw [hcongr]
      exact length_filter_not (fun pending => decide (pending.due_at ≤ now)) q
  · intro q now events hq
    exact dispatcher_tick_length jm fromStrVec subsOf fails now q events hq
  · exact dispatcher_run_length jm fromStrVec subsOf fails ticks []
      (by rw [List.length_nil]; exact Nat.zero_le _)
  · have hb := dispatcher_run_pair_bound jm fromStrVec subsOf fails w p hsubs
      ticks []
    have hz : queueCount ([] : List (PendingDelivery J)) w p = 0 := rfl
    omega

/-- JSON model used by concrete witnesses: every detail string fails to
parse and is wrapped as-is. -/
def wJm : JsonModel String :=
  ⟨fun _ => none, fun s => s⟩

/-- The payload `wEventA` renders to under `wJm`. -/
def wP : WebhookPayload String :=
  payload_from_system_event wJm wEventA

/-- Witness for C4's theorem: a single webhook subscribed to everything, a
run of one tick polling one event, delivery always failing — the pair is
attempted at most twice and the queue stays within bounds. -/
theorem webhook_retry_policy_witness :
    (∀ slug, webhookCount ((fun _ : String => [wWebhook]) slug) wWebhook ≤ 1) ∧
    eventCount wJm [((0 : ℚ), [wEventA])] wP ≤ 1 ∧
    attemptCount (dispatcher_run wJm (fun _ : String => some ["task.created"])
      (fun _ : String => [wWebhook]) (fun (_ : WebhookRecord) (_ : WebhookPayload String) => true) [((0 : ℚ), [wEventA])] []).1
      wWebhook wP ≤ 2 := by
  have hsubs : ∀ slug : String,
      webhookCount ((fun _ : String => [wWebhook]) slug) wWebhook ≤ 1 := by
    intro slug
    show webhookCount [wWebhook] wWebhook ≤ 1
    decide
  have honce : eventCount wJm [((0 : ℚ), [wEventA])] wP ≤ 1 := by decide
  exact ⟨hsubs, honce,
    (webhook_retry_policy wJm (fun _ : String => some ["task.created"])
      (fun _ : String => [wWebhook]) (fun _ _ => true) wWebhook wP
      [((0 : ℚ), [wEventA])] hsubs honce).2.2.2.2.2.2.2⟩

/-! ## Rate limiter (`src/rate_limit.rs`, `src/config.rs`) -/

/-- `CLEANUP_INTERVAL` (`src/rate_limit.rs`), in seconds. -/
def CLEANUP_INTERVAL : ℚ := 300

/-- `STALE_BUCKET_AGE` (`src/rate_limit.rs`), in seconds. -/
def STALE_BUCKET_AGE : ℚ := 3600

/-- `SSE_CAP_RETRY_AFTER_SECS` (`src/rate_limit.rs`). -/
def SSE_CAP_RETRY_AFTER_SECS : Nat := 10

/-- `RateScope` (`src/rate_limit.rs`). -/
inductive RateScope where
  | Read
  | Write
  | Attachment
  | WebhookTest
  | Mcp
  | Sse
deriving Repr, DecidableEq

/-- `RateScope::description`. -/
def RateScope.description : RateScope → String
  | .Read => "read requests"
  | .Write => "write requests"
  | .Attachment => "attachment requests"
  | .WebhookTest => "webhook test requests"
  | .Mcp => "mcp requests"
  | .Sse => "sse connect requests"

/-- The rate-limit fields of `RateLimitConfig` (`src/config.rs`). -/
structure RateLimitConfig where
  read_per_min : Nat
  read_burst : Nat
  write_per_min : Nat
  write_burst : Nat
  attachment_per_min : Nat
  attachment_burst : Nat
  webhook_test_per_min : Nat
  webhook_test_burst : Nat
  mcp_per_min : Nat
  mcp_burst : Nat
  sse_connect_per_min : Nat
  sse_connect_burst : Nat
  sse_max_per_identity : Nat
  sse_max_global : Nat
deriving Repr, DecidableEq

/-- The `Default` impl of `RateLimitConfig` (`src/config.rs`). -/
def RateLimitConfig.default : RateLimitConfig :=
  ⟨240, 60, 120, 30, 30, 10, 20, 5, 80, 20, 40, 10, 10, 400⟩

/-- `BucketSettings` (`src/rate_limit.rs`). -/
structure BucketSettings where
  per_minute : Nat
  burst : Nat
deriving Repr, DecidableEq

/-- `bucket_settings` (`src/rate_limit.rs`). -/
def bucket_settings (settings : RateLimitConfig) (scope : RateScope) :
    BucketSettings :=
  match scope with
  | .Read => ⟨settings.read_per_min, settings.read_burst⟩
  | .Write => ⟨settings.write_per_min, settings.write_burst⟩
  | .Attachment => ⟨settings.attachment_per_min, settings.attachment_burst⟩
  | .WebhookTest => ⟨settings.webhook_test_per_min, settings.webhook_test_burst⟩
  | .Mcp => ⟨settings.mcp_per_min, settings.mcp_burst⟩
  | .Sse => ⟨settings.sse_connect_per_min, settings.sse_connect_burst⟩

/-- `RateBucket` (`src/rate_limit.rs`). The `f64` token count and the
`Instant`s are modelled as exact rationals (seconds). -/
structure RateBucket where
  tokens : ℚ
  last_refill : ℚ
  last_seen : ℚ
deriving Repr, DecidableEq

/-- `RateBucket::new`: a bucket starts full. -/
def RateBucket.new (burst : Nat) (now : ℚ) : RateBucket :=
  ⟨(burst : ℚ), now, now⟩

/-- `RateBucket::refill`: tokens accrue at `per_minute / 60` per second since
`last_refill`, capped at `burst`; `saturating_duration_since` clamps a
negative elapsed time to zero, and a zero elapsed time (or `per_minute = 0`)
leaves the count untouched. -/
def RateBucket.refill (bucket : RateBucket) (per_minute burst : Nat)
    (now : ℚ) : RateBucket :=
  let bucket := { bucket with last_seen := now }
  if per_minute = 0 then bucket
  else
    let elapsed := max (now - bucket.last_refill) 0
    if elapsed ≤ 0 then bucket
    else
      let refill_rate := (per_minute : ℚ) / 60
      { bucket with
        tokens := min (bucket.tokens + elapsed * refill_rate) (burst : ℚ)
        last_refill := now }

/-- `retry_after_seconds` (`src/rate_limit.rs`):
`(missing / refill_rate).ceil().max(1.0) as u64` with
`missing = (1 - tokens).max(0)`. -/
def retry_after_seconds (tokens : ℚ) (per_minute : Nat) : Nat :=
  if per_minute = 0 then 60
  else
    let refill_rate := (per_minute : ℚ) / 60
    let missing := max (1 - tokens) 0
    (max ⌈missing / refill_rate⌉ 1).toNat

/-- `reset_after_seconds` (`src/rate_limit.rs`). -/
def reset_after_seconds (tokens : ℚ) (per_minute burst : Nat) : Nat :=
  if per_minute = 0 then 60
  else
    let refill_rate := (per_minute : ℚ) / 60
    let missing := max ((burst : ℚ) - tokens) 0
    if missing ≤ 0 then 0 else ⌈missing / refill_rate⌉.toNat

/-- `RateAllowance` (`src/rate_limit.rs`). -/
structure RateAllowance where
  limit : Nat
  remaining : Nat
  reset_after_secs : Nat
deriving Repr, DecidableEq

/-- `RateDenial` (`src/rate_limit.rs`). -/
structure RateDenial where
  limit : Nat
  remaining : Nat
  reset_after_secs : Nat
  retry_after_secs : Nat
  message : String
deriving Repr, DecidableEq

/-- `RateDecision` (`src/rate_limit.rs`). -/
inductive RateDecision where
  | Allow (allowance : RateAllowance)
  | Deny (denial : RateDenial)
deriving Repr, DecidableEq

/-- Is the decision an `Allow`? -/
def RateDecision.isAllow : RateDecision → Bool
  | .Allow _ => true
  | .Deny _ => false

/-- Is the decision a `Deny`? -/
def RateDecision.isDeny : RateDecision → Bool
  | .Allow _ => false
  | .Deny _ => true

/-- The per-bucket body of `RateLimiter::check_with_now`
(`src/rate_limit.rs`, after the map entry lookup): refill the bucket, then
either consume one token and allow (with remaining =
`tokens.floor().clamp(0, u32::MAX)` and a reset-after), or deny with a
retry-after. -/
def check_bucket (settings : BucketSettings) (scope : RateScope)
    (bucket : RateBucket) (now : ℚ) : RateDecision × RateBucket :=
  let bucket := bucket.refill settings.per_minute settings.burst now
  if 1 ≤ bucket.tokens then
    let bucket := { bucket with tokens := bucket.tokens - 1 }
    let remaining := (min (max ⌊bucket.tokens⌋ 0) (2 ^ 32 - 1)).toNat
    (.Allow ⟨settings.per_minute, remaining,
        reset_after_seconds bucket.tokens settings.per_minute settings.burst⟩,
      bucket)
  else
    let retry_after_secs := retry_after_seconds bucket.tokens settings.per_minute
    (.Deny ⟨settings.per_minute, 0, retry_after_secs, retry_after_secs,
        "rate limit exceeded for " ++ scope.description⟩,
      bucket)

/-- `RateLimiterInner` (`src/rate_limit.rs`): the two `HashMap`s are
modelled as functions with `none` for an absent key. -/
structure RateLimiterInner where
  buckets : RateScope × String → Option RateBucket
  sse_active_by_identity : String → Option Nat
  sse_active_global : Nat
  last_cleanup : Option ℚ

/-- The `Default` state: empty maps, zero active streams. -/
def RateLimiterInner.empty : RateLimiterInner :=
  ⟨fun _ => none, fun _ => none, 0, none⟩

/-- `RateLimiterInner::cleanup_if_needed`: at most every `CLEANUP_INTERVAL`,
retain only buckets seen within `STALE_BUCKET_AGE` (the `retain` over the
map is modelled pointwise). -/
def RateLimiterInner.cleanup_if_needed (inner : RateLimiterInner) (now : ℚ) :
    RateLimiterInner :=
  let should_cleanup :=
    match inner.last_cleanup with
    | none => true
    | some previous => decide (CLEANUP_INTERVAL ≤ max (now - previous) 0)
  if should_cleanup then
    { inner with
      buckets := fun key => (inner.buckets key).filter fun bucket =>
        decide (max (now - bucket.last_seen) 0 < STALE_BUCKET_AGE)
      last_cleanup := some now }
  else inner

/-- `RateLimiter::check_with_now` (`src/rate_limit.rs`): under the single
mutex (`with_inner`), run the cleanup, look up or lazily create a full
bucket for `(scope, identity)`, refill and decide, and store the updated
bucket back. -/
def check_with_now (settings : RateLimitConfig) (inner : RateLimiterInner)
    (scope : RateScope) (identity : String) (now : ℚ) :
    RateDecision × RateLimiterInner :=
  let s := bucket_settings settings scope
  let inner := inner.cleanup_if_needed now
  let bucket := (inner.buckets (scope, identity)).getD (RateBucket.new s.burst now)
  let result := check_bucket s scope bucket now
  (result.1,
    { inner with
      buckets := fun key =>
        if key = (scope, identity) then some result.2 else inner.buckets key })

/-- `SseCapDenied` (`src/rate_limit.rs`). -/
structure SseCapDenied where
  limit : Nat
  retry_after_secs : Nat
  message : String
deriving Repr, DecidableEq

/-- `RateLimiter::try_acquire_sse_slot` (`src/rate_limit.rs`): under the
single `with_inner` lock acquisition, check the per-identity ceiling, then
the global ceiling; on success increment both counters
(`and_modify(+1).or_insert(1)`). -/
def try_acquire_sse_slot (settings : RateLimitConfig)
    (inner : RateLimiterInner) (identity : String) :
    Except SseCapDenied RateLimiterInner :=
  let current_for_identity := (inner.sse_active_by_identity identity).getD 0
  if settings.sse_max_per_identity ≤ current_for_identity then
    .error ⟨settings.sse_max_per_identity, SSE_CAP_RETRY_AFTER_SECS,
      "too many active SSE streams for this client identity"⟩
  else if settings.sse_max_global ≤ inner.sse_active_global then
    .error ⟨settings.sse_max_global, SSE_CAP_RETRY_AFTER_SECS,
      "SSE stream capacity reached for this instance"⟩
  else
    .ok { inner with
      sse_active_global := inner.sse_active_global + 1
      sse_active_by_identity := fun key =>
        if key = identity then
          some ((inner.sse_active_by_identity identity).getD 0 + 1)
        else inner.sse_active_by_identity key }

/-- `RateLimiter::release_sse_slot` (`src/rate_limit.rs`): saturating
decrement of the global count; the per-identity entry is decremented when
above one, removed when at one, untouched when absent. -/
def release_sse_slot (inner : RateLimiterInner) (identity : String) :
    RateLimiterInner :=
  { inner with
    sse_active_global := inner.sse_active_global - 1
    sse_active_by_identity := fun key =>
      if key = identity then
        match inner.sse_active_by_identity identity with
        | some count => if 1 < count then some (count - 1) else none
        | none => none
      else inner.sse_active_by_identity key }

/-- `SseConnectionLease` (`src/rate_limit.rs`): the scoped lease; `released`
is the drop guard flag. -/
structure SseConnectionLease where
  identity : String
  released : Bool
deriving Repr, DecidableEq

/-- The `Drop` impl of `SseConnectionLease`: release the slot once and set
the flag; a lease already released does nothing. -/
def lease_drop (inner : RateLimiterInner) (lease : SseConnectionLease) :
    RateLimiterInner × SseConnectionLease :=
  if lease.released then (inner, lease)
  else (release_sse_slot inner lease.identity, { lease with released := true })

/-- C5: `try_acquire_sse_slot` checks both ceilings in one function of one
locked state: it denies when the identity already holds
`sse_max_per_identity` leases or the global count has reached
`sse_max_global`; a grant increments the per-identity and the global counter
(leaving other identities untouched); dropping an unreleased lease
decrements both counters by exactly one, dropping it again is a no-op (the
`released` flag), and releasing one lease frees exactly one slot for that
identity. -/
theorem sse_capacity_lease_semantics (settings : RateLimitConfig)
    (inner : RateLimiterInner) (identity : String) :
    (settings.sse_max_per_identity ≤
        (inner.sse_active_by_identity identity).getD 0 →
      try_acquire_sse_slot settings inner identity =
        .error ⟨settings.sse_max_per_identity, SSE_CAP_RETRY_AFTER_SECS,
          "too many active SSE streams for this client identity"⟩) ∧
    ((inner.sse_active_by_identity identity).getD 0 <
        settings.sse_max_per_identity →
      settings.sse_max_global ≤ inner.sse_active_global →
      try_acquire_sse_slot settings inner identity =
        .error ⟨settings.sse_max_global, SSE_CAP_RETRY_AFTER_SECS,
          "SSE stream capacity reached for this instance"⟩) ∧
    ((inner.sse_active_by_identity identity).getD 0 <
        settings.sse_max_per_identity →
      inner.sse_active_global < settings.sse_max_global →
      ∃ granted, try_acquire_sse_slot settings inner identity = .ok granted ∧
        (granted.sse_active_by_identity identity).getD 0 =
          (inner.sse_active_by_identity identity).getD 0 + 1 ∧
        granted.sse_active_global = inner.sse_active_global + 1 ∧
        ∀ other, other ≠ identity →
          granted.sse_active_by_identity other =
            inner.sse_active_by_identity other) ∧
    (((lease_drop inner ⟨identity, false⟩).1.sse_active_by_identity
          identity).getD 0 =
        (inner.sse_active_by_identity identity).getD 0 - 1 ∧
      (lease_drop inner ⟨identity, false⟩).1.sse_active_global =
        inner.sse_active_global - 1 ∧
      ∀ other, other ≠ identity →
        (lease_drop inner ⟨identity, false⟩).1.sse_active_by_identity other =
          inner.sse_active_by_identity other) ∧
    (lease_drop (lease_drop inner ⟨identity, false⟩).1
        (lease_drop inner ⟨identity, false⟩).2 =
      ((lease_drop inner ⟨identity, false⟩).1,
        (lease_drop inner ⟨identity, false⟩).2)) ∧
    ((inner.sse_active_by_identity identity).getD 0 =
        settings.sse_max_per_identity →
      1 ≤ settings.sse_max_per_identity →
      1 ≤ inner.sse_active_global →
      inner.sse_active_global ≤ settings.sse_max_global →
      (try_acquire_sse_slot settings inner identity).isOk = false ∧
      (try_acquire_sse_slot settings (lease_drop inner ⟨identity, false⟩).1
        identity).isOk = true) := by
  have hdropIdentity :
      ((lease_drop inner ⟨identity, false⟩).1.sse_active_by_identity
        identity).getD 0 =
      (inner.sse_active_by_identity identity).getD 0 - 1 := by
    rw [lease_drop, if_neg (by simp)]
    show ((release_sse_slot inner identity).sse_active_by_identity
      identity).getD 0 = _
    rw [release_sse_slot]
    dsimp only
    rw [if_pos rfl]
    rcases h : inner.sse_active_by_identity identity with _ | count
    · rfl
    · dsimp only
      by_cases hc : 1 < count
      · rw [if_pos hc]
        rfl
      · rw [if_neg hc]
        simp only [Option.getD_none, Option.getD_some]
        omega
  have hdropGlobal : (lease_drop inner ⟨identity, false⟩).1.sse_active_global =
      inner.sse_active_global - 1 := by
    rw [lease_drop, if_neg (by simp)]
    rfl
  refine ⟨?_, ?_, ?_, ⟨hdropIdentity, hdropGlobal, ?_⟩, ?_, ?_⟩
  · intro h
    rw [try_acquire_sse_slot, if_pos h]
  · intro h1 h2
    rw [try_acquire_sse_slot, if_neg (Nat.not_le.mpr h1), if_pos h2]
  · intro h1 h2
    rw [try_acquire_sse_slot, if_neg (Nat.not_le.mpr h1),
      if_neg (Nat.not_le.mpr h2)]
    refine ⟨_, rfl, ?_, rfl, ?_⟩
    · dsimp only
      rw [if_pos rfl]
      rfl
    · intro other hother
      dsimp only
      rw [if_neg hother]
  · intro other hother
    rw [lease_drop, if_neg (by simp)]
    show (release_sse_slot inner identity).sse_active_by_identity other = _
    rw [release_sse_slot]
    dsimp only
    rw [if_neg hother]
  · have h1 : lease_drop inner ⟨identity, false⟩ =
        (release_sse_slot inner identity, ⟨identity, true⟩) := by
      rw [lease_drop, if_neg (by simp)]
    rw [h1]
    show lease_drop (release_sse_slot inner identity) ⟨identity, true⟩ = _
    rw [lease_drop, if_pos rfl]
  · intro hfull hpi hg1 hg2
    constructor
    · rw [try_acquire_sse_slot, if_pos (le_of_eq hfull.symm)]
      rfl
    · rw [try_acquire_sse_slot, if_neg (by rw [hdropIdentity, hfull]; omega),
        if_neg (by rw [hdropGlobal]; omega)]
      rfl

/-- A concrete limiter state for C5's witness: identity `token:a` holds 10
active SSE leases and the global count is 10. -/
def wInner : RateLimiterInner :=
  { buckets := fun _ => none
    sse_active_by_identity := fun key => if key = "token:a" then some 10 else none
    sse_active_global := 10
    last_cleanup := none }

/-- Witness for C5's theorem: with the default ceilings (10 per identity,
400 global), an identity holding 10 leases is denied an 11th; dropping one
lease frees exactly one slot and the next acquisition succeeds. -/
theorem sse_capacity_lease_semantics_witness :
    (wInner.sse_active_by_identity "token:a").getD 0 =
      RateLimitConfig.default.sse_max_per_identity ∧
    (try_acquire_sse_slot RateLimitConfig.default wInner "token:a").isOk =
      false ∧
    (try_acquire_sse_slot RateLimitConfig.default
      (lease_drop wInner ⟨"token:a", false⟩).1 "token:a").isOk = true := by
  have hfull : (wInner.sse_active_by_identity "token:a").getD 0 =
      RateLimitConfig.default.sse_max_per_identity := by decide
  have hmain := (sse_capacity_lease_semantics RateLimitConfig.default wInner
    "token:a").2.2.2.2.2 hfull (by decide) (by decide) (by decide)
  exact ⟨hfull, hmain.1, hmain.2⟩

theorem retry_after_spec_formula (tokens : ℚ) (pm : Nat) (hpm : 0 < pm)
    (ht : tokens < 1) :
    retry_after_seconds tokens pm =
      (max 1 ⌈(1 - tokens) / ((pm : ℚ) / 60)⌉).toNat := by
  rw [retry_after_seconds, if_neg (Nat.pos_iff_ne_zero.mp hpm)]
  dsimp only
  rw [max_eq_left (by linarith : (0 : ℚ) ≤ 1 - tokens), max_comm]

/-- C2: `check_with_now` first lazily refills the looked-up (or lazily
created, full) bucket by `elapsed × per_minute/60` tokens capped at `burst`
— refill happens only inside `check`, there is no background ticking — then
if at least one token is held it consumes exactly one and returns `Allow`
carrying `limit = per_minute`, the remaining count, and a reset-after;
otherwise it returns `Deny` whose `retry_after` is
`ceil((1 − tokens)/(per_minute/60))` seconds with a minimum of 1 second.
(`per_minute > 0` reflects the config validation `assert_non_zero_u32`.) -/
theorem check_with_now_token_bucket (settings : RateLimitConfig)
    (inner : RateLimiterInner) (scope : RateScope) (identity : String)
    (now : ℚ) (pm burst : Nat)
    (hs : bucket_settings settings scope = ⟨pm, burst⟩) (b0 : RateBucket)
    (hb0 : ((inner.cleanup_if_needed now).buckets (scope, identity)).getD
      (RateBucket.new burst now) = b0)
    (hpm : 0 < pm) (hcap : b0.tokens ≤ (burst : ℚ)) :
    (b0.refill pm burst now).tokens =
      min (b0.tokens + max (now - b0.last_refill) 0 * ((pm : ℚ) / 60))
        (burst : ℚ) ∧
    (1 ≤ (b0.refill pm burst now).tokens →
      (check_with_now settings inner scope identity now).1 =
        .Allow ⟨pm,
          (min (max ⌊(b0.refill pm burst now).tokens - 1⌋ 0)
            (2 ^ 32 - 1)).toNat,
          reset_after_seconds ((b0.refill pm burst now).tokens - 1) pm burst⟩ ∧
      ∃ stored, (check_with_now settings inner scope identity now).2.buckets
          (scope, identity) = some stored ∧
        stored.tokens = (b0.refill pm burst now).tokens - 1) ∧
    ((b0.refill pm burst now).tokens < 1 →
      (check_with_now settings inner scope identity now).1 =
        .Deny ⟨pm, 0,
          (max 1 ⌈(1 - (b0.refill pm burst now).tokens) /
            ((pm : ℚ) / 60)⌉).toNat,
          (max 1 ⌈(1 - (b0.refill pm burst now).tokens) /
            ((pm : ℚ) / 60)⌉).toNat,
          "rate limit exceeded for " ++ scope.description⟩ ∧
      ∃ stored, (check_with_now settings inner scope identity now).2.buckets
          (scope, identity) = some stored ∧
        stored.tokens = (b0.refill pm burst now).tokens) := by
  have hrefill : (b0.refill pm burst now).tokens =
      min (b0.tokens + max (now - b0.last_refill) 0 * ((pm : ℚ) / 60))
        (burst : ℚ) := by
    rw [RateBucket.refill]
    dsimp only
    rw [if_neg (Nat.pos_iff_ne_zero.mp hpm)]
    by_cases he : max (now - b0.last_refill) 0 ≤ 0
    · rw [if_pos he]
      have he0 : max (now - b0.last_refill) 0 = 0 :=
        le_antisymm he (le_max_right _ 0)
      rw [he0, zero_mul, add_zero, min_eq_left hcap]
    · rw [if_neg he]
  have hbridge : check_with_now settings inner scope identity now =
      ((check_bucket ⟨pm, burst⟩ scope b0 now).1,
        { inner.cleanup_if_needed now with
          buckets := fun key =>
            if key = (scope, identity) then
              some (check_bucket ⟨pm, burst⟩ scope b0 now).2
            else (inner.cleanup_if_needed now).buckets key }) := by
    rw [check_with_now, hs]
    dsimp only
    rw [hb0]
  refine ⟨hrefill, ?_, ?_⟩
  · intro ht
    rw [hbridge]
    dsimp only
    rw [check_bucket]
    dsimp only
    rw [if_pos ht]
    exact ⟨rfl, _, by rw [if_pos rfl], rfl⟩
  · intro ht
    rw [hbridge]
    dsimp only
    rw [check_bucket]
    dsimp only
    rw [if_neg (not_le.mpr ht)]
    rw [retry_after_spec_formula _ pm hpm ht]
    exact ⟨rfl, _, by rw [if_pos rfl], rfl⟩

/-- Config used by C2's witness: Write scope at 60 per minute, burst 2. -/
def wSettings : RateLimitConfig :=
  ⟨240, 60, 60, 2, 30, 10, 20, 5, 80, 20, 40, 10, 10, 400⟩

/-- Witness for C2's theorem: a fresh Write bucket under `wSettings` at
instant 0 allows the first request with limit 60, remaining 1, reset-after
1 second. -/
theorem check_with_now_token_bucket_witness :
    (0 : Nat) < 60 ∧
    (RateBucket.new 2 0).tokens ≤ ((2 : Nat) : ℚ) ∧
    (check_with_now wSettings RateLimiterInner.empty .Write "ip:anonymous"
      0).1 = .Allow ⟨60, 1, 1⟩ := by
  have hmain := check_with_now_token_bucket wSettings RateLimiterInner.empty
    .Write "ip:anonymous" 0 60 2 rfl (RateBucket.new 2 0) rfl
    (by norm_num) (le_refl _)
  have htok : ((RateBucket.new 2 0).refill 60 2 0).tokens = 2 := by
    rw [hmain.1]
    show min ((2 : ℚ) + max ((0 : ℚ) - 0) 0 * ((60 : ℚ) / 60)) ((2 : Nat) : ℚ) = 2
    norm_num
  have happ := hmain.2.1 (by rw [htok]; norm_num)
  refine ⟨by norm_num, le_refl _, ?_⟩
  rw [happ.1, htok]
  have hrem : (min (max ⌊(2 : ℚ) - 1⌋ 0) (2 ^ 32 - 1)).toNat = 1 := by
    norm_num
  have hreset : reset_after_seconds ((2 : ℚ) - 1) 60 2 = 1 := by
    rw [reset_after_seconds, if_neg (by norm_num)]
    dsimp only
    rw [show max (((2 : Nat) : ℚ) - (2 - 1)) 0 = 1 by norm_num]
    rw [if_neg (by norm_num)]
    norm_num
  rw [hrem, hreset]

/-- Iterated `check` calls against one bucket at a fixed instant, collecting
the decisions. -/
def checks_at (settings : BucketSettings) (scope : RateScope)
    (bucket : RateBucket) (now : ℚ) : Nat → List RateDecision × RateBucket
  | 0 => ([], bucket)
  | n + 1 =>
    let first := check_bucket settings scope bucket now
    let rest := checks_at settings scope first.2 now n
    (first.1 :: rest.1, rest.2)

theorem refill_at_refill_instant (b : RateBucket) (pm burst : Nat) (now : ℚ)
    (hlr : b.last_refill = now) :
    b.refill pm burst now = { b with last_seen := now } := by
  rw [RateBucket.refill]
  dsimp only
  by_cases h0 : pm = 0
  · rw [if_pos h0]
  · rw [if_neg h0, if_pos (by rw [hlr]; simp)]

theorem refill_invariant (pm burst : Nat) (b : RateBucket) (now : ℚ)
    (h0 : 0 ≤ b.tokens) (hc : b.tokens ≤ (burst : ℚ)) :
    0 ≤ (b.refill pm burst now).tokens ∧
      (b.refill pm burst now).tokens ≤ (burst : ℚ) := by
  rw [RateBucket.refill]
  dsimp only
  by_cases hp0 : pm = 0
  · rw [if_pos hp0]
    exact ⟨h0, hc⟩
  · rw [if_neg hp0]
    by_cases he : max (now - b.last_refill) 0 ≤ 0
    · rw [if_pos he]
      exact ⟨h0, hc⟩
    · rw [if_neg he]
      dsimp only
      refine ⟨le_min (add_nonneg h0 (mul_nonneg (le_max_right _ _) ?_))
        (Nat.cast_nonneg _), min_le_right _ _⟩
      positivity

theorem check_bucket_invariant (pm burst : Nat) (scope : RateScope)
    (b : RateBucket) (now : ℚ) (h0 : 0 ≤ b.tokens)
    (hc : b.tokens ≤ (burst : ℚ)) :
    0 ≤ (check_bucket ⟨pm, burst⟩ scope b now).2.tokens ∧
      (check_bucket ⟨pm, burst⟩ scope b now).2.tokens ≤ (burst : ℚ) := by
  obtain ⟨hr0, hrc⟩ := refill_invariant pm burst b now h0 hc
  rw [check_bucket]
  dsimp only
  by_cases ht : 1 ≤ (b.refill pm burst now).tokens
  · rw [if_pos ht]
    dsimp only
    refine ⟨by linarith, by linarith⟩
  · rw [if_neg ht]
    exact ⟨hr0, hrc⟩

theorem checks_at_drain (pm burst : Nat) (scope : RateScope) (now : ℚ) :
    ∀ (n k : Nat) (b : RateBucket), b.tokens = (k : ℚ) →
      b.last_refill = now → n ≤ k →
      (checks_at ⟨pm, burst⟩ scope b now n).1.all RateDecision.isAllow = true ∧
      (checks_at ⟨pm, burst⟩ scope b now n).2.tokens = ((k - n : Nat) : ℚ) ∧
      (checks_at ⟨pm, burst⟩ scope b now n).2.last_refill = now := by
  intro n
  induction n with
  | zero =>
    intro k b hk hlr _
    refine ⟨rfl, ?_, hlr⟩
    rw [checks_at, hk, Nat.sub_zero]
  | succ n ih =>
    intro k b hk hlr h
    have hrefill := refill_at_refill_instant b pm burst now hlr
    have ht : 1 ≤ (b.refill pm burst now).tokens := by
      rw [hrefill]
      show (1 : ℚ) ≤ b.tokens
      rw [hk]
      exact_mod_cast (by omega : 1 ≤ k)
    rw [checks_at]
    dsimp only
    rw [check_bucket]
    dsimp only
    rw [if_pos ht]
    dsimp only
    have hb' : ({ b.refill pm burst now with
        tokens := (b.refill pm burst now).tokens - 1 } : RateBucket).tokens =
        ((k - 1 : Nat) : ℚ) := by
      dsimp only
      rw [hrefill]
      show b.tokens - 1 = ((k - 1 : Nat) : ℚ)
      rw [hk]
      have hk1 : 1 ≤ k := by omega
      push_cast [hk1]
      ring
    have hlr' : ({ b.refill pm burst now with
        tokens := (b.refill pm burst now).tokens - 1 } : RateBucket).last_refill
        = now := by
      dsimp only
      rw [hrefill]
      exact hlr
    obtain ⟨hall, htok, hlast⟩ := ih (k - 1) _ hb' hlr' (by omega)
    refine ⟨?_, ?_, hlast⟩
    · rw [List.all_cons, hall]
      rfl
    · rw [htok]
      congr 1
      omega

theorem refill_after_gap (pm burst : Nat) (b : RateBucket) (t0 : ℚ)
    (hp : 0 < pm) (hburst : 1 ≤ burst) (hlr : b.last_refill = t0)
    (htok : b.tokens = 0) :
    (b.refill pm burst (t0 + 60 / (pm : ℚ))).tokens = 1 ∧
      (b.refill pm burst (t0 + 60 / (pm : ℚ))).last_refill =
        t0 + 60 / (pm : ℚ) := by
  have hpmq : (0 : ℚ) < (pm : ℚ) := by exact_mod_cast hp
  have hgap : max (t0 + 60 / (pm : ℚ) - b.last_refill) 0 = 60 / (pm : ℚ) := by
    rw [hlr]
    rw [show t0 + 60 / (pm : ℚ) - t0 = 60 / (pm : ℚ) by ring]
    exact max_eq_left (by positivity)
  rw [RateBucket.refill]
  dsimp only
  rw [if_neg (Nat.pos_iff_ne_zero.mp hp), hgap,
    if_neg (by rw [not_le]; exact div_pos (by norm_num) hpmq)]
  refine ⟨?_, rfl⟩
  dsimp only
  rw [htok, zero_add]
  rw [show 60 / (pm : ℚ) * ((pm : ℚ) / 60) = 1 by field_simp]
  exact min_eq_left (by exact_mod_cast hburst)

/-- C6: the token bucket invariant `0 ≤ tokens ≤ burst` is preserved by
`refill` (which never raises the count above `burst`) and by the full
per-bucket check (which never drives it below zero); moreover, starting from
a fresh bucket, `burst` instantaneous checks all allow, the next check at
the same instant denies, and after `per_minute/60` further seconds exactly
one more check succeeds — the one after it at the same instant denies
again. -/
theorem rate_bucket_invariant_and_burst (pm burst : Nat) (scope : RateScope)
    (t0 : ℚ) (hpm : 1 ≤ pm) (hburst : 1 ≤ burst) :
    (∀ (b : RateBucket) (now : ℚ), 0 ≤ b.tokens → b.tokens ≤ (burst : ℚ) →
      0 ≤ (b.refill pm burst now).tokens ∧
        (b.refill pm burst now).tokens ≤ (burst : ℚ)) ∧
    (∀ (b : RateBucket) (now : ℚ), 0 ≤ b.tokens → b.tokens ≤ (burst : ℚ) →
      0 ≤ (check_bucket ⟨pm, burst⟩ scope b now).2.tokens ∧
        (check_bucket ⟨pm, burst⟩ scope b now).2.tokens ≤ (burst : ℚ)) ∧
    (checks_at ⟨pm, burst⟩ scope (RateBucket.new burst t0) t0 burst).1.all
      RateDecision.isAllow = true ∧
    (check_bucket ⟨pm, burst⟩ scope
      (checks_at ⟨pm, burst⟩ scope (RateBucket.new burst t0) t0 burst).2
      t0).1.isDeny = true ∧
    (check_bucket ⟨pm, burst⟩ scope
      (checks_at ⟨pm, burst⟩ scope (RateBucket.new burst t0) t0 burst).2
      (t0 + 60 / (pm : ℚ))).1.isAllow = true ∧
    (check_bucket ⟨pm, burst⟩ scope
      (check_bucket ⟨pm, burst⟩ scope
        (checks_at ⟨pm, burst⟩ scope (RateBucket.new burst t0) t0 burst).2
        (t0 + 60 / (pm : ℚ))).2
      (t0 + 60 / (pm : ℚ))).1.isDeny = true := by
  obtain ⟨hall, htok, hlast⟩ := checks_at_drain pm burst scope t0 burst burst
    (RateBucket.new burst t0) rfl rfl (le_refl burst)
  have htok0 : (checks_at ⟨pm, burst⟩ scope (RateBucket.new burst t0) t0
      burst).2.tokens = 0 := by
    rw [htok, Nat.sub_self]
    rfl
  refine ⟨fun b now h0 hc => refill_invariant pm burst b now h0 hc,
    fun b now h0 hc => check_bucket_invariant pm burst scope b now h0 hc,
    hall, ?_, ?_, ?_⟩
  · rw [check_bucket]
    dsimp only
    rw [if_neg (by
      rw [refill_at_refill_instant _ pm burst t0 hlast]
      show ¬ (1 : ℚ) ≤ (checks_at ⟨pm, burst⟩ scope (RateBucket.new burst t0)
        t0 burst).2.tokens
      rw [htok0]
      norm_num)]
    rfl
  · obtain ⟨hg1, _⟩ := refill_after_gap pm burst _ t0 (by omega) hburst hlast
      htok0
    rw [check_bucket]
    dsimp only
    rw [if_pos (by rw [hg1])]
    rfl
  · obtain ⟨hg1, hg2⟩ := refill_after_gap pm burst _ t0 (by omega) hburst
      hlast htok0
    have hafter : (check_bucket ⟨pm, burst⟩ scope
        (checks_at ⟨pm, burst⟩ scope (RateBucket.new burst t0) t0 burst).2
        (t0 + 60 / (pm : ℚ))).2.tokens = 0 ∧
        (check_bucket ⟨pm, burst⟩ scope
          (checks_at ⟨pm, burst⟩ scope (RateBucket.new burst t0) t0 burst).2
          (t0 + 60 / (pm : ℚ))).2.last_refill = t0 + 60 / (pm : ℚ) := by
      rw [check_bucket]
      dsimp only
      rw [if_pos (by rw [hg1])]
      dsimp only
      rw [hg1, hg2]
      norm_num
    rw [check_bucket]
    dsimp only
    rw [if_neg (by
      rw [refill_at_refill_instant _ pm burst _ hafter.2]
      show ¬ (1 : ℚ) ≤ _
      rw [hafter.1]
      norm_num)]
    rfl

/-- Witness for C6's theorem at `per_minute = 60`, `burst = 2`: two
instantaneous checks allow, the third denies, one more succeeds exactly one
second later and the next after it denies. -/
theorem rate_bucket_invariant_and_burst_witness :
    (1 : Nat) ≤ 60 ∧ (1 : Nat) ≤ 2 ∧
    (checks_at ⟨60, 2⟩ .Write (RateBucket.new 2 0) 0 2).1.all
      RateDecision.isAllow = true ∧
    (check_bucket ⟨60, 2⟩ .Write
      (checks_at ⟨60, 2⟩ .Write (RateBucket.new 2 0) 0 2).2 0).1.isDeny =
      true := by
  have hmain := rate_bucket_invariant_and_burst 60 2 .Write 0 (by norm_num)
    (by norm_num)
  exact ⟨by norm_num, by norm_num, hmain.2.2.1, hmain.2.2.2.1⟩

/-! ## Request gating middleware (`src/rate_limit.rs`, mounted in
`src/main.rs` as the outermost layer over the whole router) -/

/-- HTTP methods relevant to `classify_scope`. -/
inductive Method where
  | GET
  | HEAD
  | OPTIONS
  | POST
  | PUT
  | PATCH
  | DELETE
deriving Repr, DecidableEq

/-- Rust `str::starts_with`. -/
def strStartsWith (s prefixStr : String) : Bool :=
  prefixStr.data.isPrefixOf s.data

/-- Rust `str::ends_with`. -/
def strEndsWith (s suffix : String) : Bool :=
  suffix.data.isSuffixOf s.data

/-- Rust `str::contains` (substring search). -/
def strContainsSub (s sub : String) : Bool :=
  decide (sub.data <:+: s.data)

/-- Rust `str::trim_end_matches('/')`. -/
def trimEndSlashes (s : String) : String :=
  ⟨(s.data.reverse.dropWhile (fun c => c == '/')).reverse⟩

/-- `is_sse_route` (`src/rate_limit.rs`). -/
def is_sse_route (path : String) : Bool :=
  let normalized := trimEndSlashes path
  normalized == "/api/v1/events" ||
    (strStartsWith normalized "/api/v1/projects/" &&
      strEndsWith normalized "/events")

/-- `classify_scope` (`src/rate_limit.rs`): scope classification is a pure
function of method and path shape; paths outside `/mcp` and `/api/v1` get no
scope at all. -/
def classify_scope (method : Method) (path : String) : Option RateScope :=
  if strStartsWith path "/mcp" then some .Mcp
  else if !strStartsWith path "/api/v1" then none
  else if is_sse_route path then some .Sse
  else if strStartsWith path "/api/v1/files/" ||
      strContainsSub path "/attachments" then some .Attachment
  else if strContainsSub path "/webhooks/" && strEndsWith path "/test" then
    some .WebhookTest
  else if method == .GET || method == .HEAD || method == .OPTIONS then
    some .Read
  else some .Write

/-- A minimal HTTP response: status, error body marker, and headers as a
map. -/
structure Response where
  status : Nat
  body_error : Option String
  headers : String → Option String

/-- `set_header_u64` (`src/rate_limit.rs`): `HeaderMap::insert`. -/
def set_header_u64 (response : Response) (key : String) (value : Nat) :
    Response :=
  { response with
    headers := fun k => if k = key then some (toString value)
      else response.headers k }

/-- `set_rate_limit_headers` (`src/rate_limit.rs`). -/
def set_rate_limit_headers (response : Response)
    (allowance : RateAllowance) : Response :=
  set_header_u64 (set_header_u64 (set_header_u64 response
    "x-ratelimit-limit" allowance.limit)
    "x-ratelimit-remaining" allowance.remaining)
    "x-ratelimit-reset" allowance.reset_after_secs

/-- `rate_limited_response` (`src/rate_limit.rs`): HTTP 429 with the
`rate_limited` JSON error body, the three `X-RateLimit-*` headers and
`Retry-After`. -/
def rate_limited_response (denial : RateDenial) : Response :=
  set_header_u64
    (set_rate_limit_headers ⟨429, some "rate_limited", fun _ => none⟩
      ⟨denial.limit, denial.remaining, denial.reset_after_secs⟩)
    "retry-after" denial.retry_after_secs

/-- `sse_capacity_response` (`src/rate_limit.rs`). -/
def sse_capacity_response (denial : SseCapDenied) : Response :=
  set_header_u64 (set_header_u64 (set_header_u64 (set_header_u64
    ⟨429, some "rate_limited", fun _ => none⟩
    "x-ratelimit-limit" denial.limit)
    "x-ratelimit-remaining" 0)
    "x-ratelimit-reset" denial.retry_after_secs)
    "retry-after" denial.retry_after_secs

/-- `enforce_limits` (`src/rate_limit.rs`): the middleware mounted outermost
over the whole router in `src/main.rs`. An unclassified request runs the
handler (`next`) directly; a classified one is checked against the rate
limiter first, and an SSE-connect route additionally acquires a capacity
slot, before the handler runs. A denial returns 429 without invoking the
handler. (`identity` stands for `request_identity`'s output; the handler is
the parameter `next`.) -/
def enforce_limits (settings : RateLimitConfig) (inner : RateLimiterInner)
    (method : Method) (path : String) (identity : String) (now : ℚ)
    (next : Unit → Response) : Response × RateLimiterInner :=
  match classify_scope method path with
  | none => (next (), inner)
  | some scope =>
    let checked := check_with_now settings inner scope identity now
    match checked.1 with
    | .Deny denial => (rate_limited_response denial, checked.2)
    | .Allow allowance =>
      if scope = RateScope.Sse then
        match try_acquire_sse_slot settings checked.2 identity with
        | .error denial => (sse_capacity_response denial, checked.2)
        | .ok granted => (set_rate_limit_headers (next ()) allowance, granted)
      else (set_rate_limit_headers (next ()) allowance, checked.2)

/-- C9 (amended): every request whose method and path classify into a rate
scope — the paths under `/mcp` and `/api/v1` — is gated by the rate limiter
before the handler runs: a denial produces the 429 response for every
possible handler (the handler is never consulted), an SSE-connect route
additionally needs a capacity slot, and the handler's response is returned
(with rate headers) only after an Allow (plus slot, for SSE). Requests whose
path classifies to no scope bypass the limiter entirely. -/
theorem enforce_limits_gating (settings : RateLimitConfig)
    (inner : RateLimiterInner) (method : Method) (path : String)
    (identity : String) (now : ℚ) :
    (classify_scope method path = none →
      ∀ next, enforce_limits settings inner method path identity now next =
        (next (), inner)) ∧
    (∀ scope, classify_scope method path = some scope →
      (∀ denial,
        (check_with_now settings inner scope identity now).1 = .Deny denial →
        ∀ next, enforce_limits settings inner method path identity now next =
          (rate_limited_response denial,
            (check_with_now settings inner scope identity now).2) ∧
          (rate_limited_response denial).status = 429) ∧
      (∀ allowance,
        (check_with_now settings inner scope identity now).1 =
          .Allow allowance →
        scope ≠ RateScope.Sse →
        ∀ next, enforce_limits settings inner method path identity now next =
          (set_rate_limit_headers (next ()) allowance,
            (check_with_now settings inner scope identity now).2)) ∧
      (∀ allowance denial,
        (check_with_now settings inner scope identity now).1 =
          .Allow allowance →
        scope = RateScope.Sse →
        try_acquire_sse_slot settings
          (check_with_now settings inner scope identity now).2 identity =
          .error denial →
        ∀ next, enforce_limits settings inner method path identity now next =
          (sse_capacity_response denial,
            (check_with_now settings inner scope identity now).2) ∧
          (sse_capacity_response denial).status = 429) ∧
      (∀ allowance granted,
        (check_with_now settings inner scope identity now).1 =
          .Allow allowance →
        scope = RateScope.Sse →
        try_acquire_sse_slot settings
          (check_with_now settings inner scope identity now).2 identity =
          .ok granted →
        ∀ next, enforce_limits settings inner method path identity now next =
          (set_rate_limit_headers (next ()) allowance, granted))) := by
  constructor
  · intro hnone next
    rw [enforce_limits, hnone]
  · intro scope hscope
    refine ⟨?_, ?_, ?_, ?_⟩
    · intro denial hdeny next
      rw [enforce_limits, hscope]
      dsimp only
      rw [hdeny]
      exact ⟨rfl, rfl⟩
    · intro allowance hallow hnotsse next
      rw [enforce_limits, hscope]
      dsimp only
      rw [hallow]
      dsimp only
      rw [if_neg hnotsse]
    · intro allowance denial hallow hsse herr next
      subst hsse
      rw [enforce_limits, hscope]
      dsimp only
      rw [hallow]
      dsimp only
      rw [if_pos rfl, herr]
      exact ⟨rfl, rfl⟩
    · intro allowance granted hallow hsse hok next
      subst hsse
      rw [enforce_limits, hscope]
      dsimp only
      rw [hallow]
      dsimp only
      rw [if_pos rfl, hok]

/-- Witness for C9's theorem: a POST to a task route classifies as Write,
and under a zero-budget Write config the request is denied with a 429
response that is the same whatever the handler would have returned. -/
theorem enforce_limits_gating_witness :
    classify_scope .POST "/api/v1/projects/ROADMAP/tasks" = some .Write ∧
    (∃ denial,
      (check_with_now ⟨240, 60, 0, 0, 30, 10, 20, 5, 80, 20, 40, 10, 10, 400⟩
        RateLimiterInner.empty .Write "ip:anonymous" 0).1 = .Deny denial ∧
      enforce_limits ⟨240, 60, 0, 0, 30, 10, 20, 5, 80, 20, 40, 10, 10, 400⟩
        RateLimiterInner.empty .POST "/api/v1/projects/ROADMAP/tasks"
        "ip:anonymous" 0 (fun _ => ⟨200, none, fun _ => none⟩) =
        (rate_limited_response denial,
          (check_with_now ⟨240, 60, 0, 0, 30, 10, 20, 5, 80, 20, 40, 10, 10,
            400⟩ RateLimiterInner.empty .Write "ip:anonymous" 0).2) ∧
      (rate_limited_response denial).status = 429) := by
  have hclass : classify_scope .POST "/api/v1/projects/ROADMAP/tasks" =
      some .Write := by decide
  have hdeny : (check_with_now
      ⟨240, 60, 0, 0, 30, 10, 20, 5, 80, 20, 40, 10, 10, 400⟩
      RateLimiterInner.empty .Write "ip:anonymous" 0).1 =
      .Deny ⟨0, 0, 60, 60, "rate limit exceeded for write requests"⟩ := rfl
  refine ⟨hclass, ⟨0, 0, 60, 60, "rate limit exceeded for write requests"⟩,
    hdeny, ?_⟩
  exact (enforce_limits_gating
    ⟨240, 60, 0, 0, 30, 10, 20, 5, 80, 20, 40, 10, 10, 400⟩
    RateLimiterInner.empty .POST "/api/v1/projects/ROADMAP/tasks"
    "ip:anonymous" 0).2 .Write hclass |>.1 _ hdeny
    (fun _ => ⟨200, none, fun _ => none⟩)

/-- Counterexample to C9 as stated: not every request method and path is
gated — `GET /healthz` (like the static-asset fallback paths) classifies to
no scope, so the middleware runs the handler directly without obtaining any
rate-limit decision: the handler's own response comes back and the limiter
state is untouched, even under a config whose every bucket would deny. -/
theorem healthz_bypasses_rate_limiter :
    classify_scope .GET "/healthz" = none ∧
    (enforce_limits ⟨0, 0, 0, 0, 0, 0, 0, 0, 0, 0, 0, 0, 0, 0⟩
      RateLimiterInner.empty .GET "/healthz" "ip:anonymous" 0
      (fun _ => ⟨200, none, fun _ => none⟩)).1.status = 200 ∧
    (enforce_limits ⟨0, 0, 0, 0, 0, 0, 0, 0, 0, 0, 0, 0, 0, 0⟩
      RateLimiterInner.empty .GET "/healthz" "ip:anonymous" 0
      (fun _ => ⟨200, none, fun _ => none⟩)).2 = RateLimiterInner.empty ∧
    (check_with_now ⟨0, 0, 0, 0, 0, 0, 0, 0, 0, 0, 0, 0, 0, 0⟩
      RateLimiterInner.empty .Read "ip:anonymous" 0).1.isDeny = true := by
  refine ⟨by decide, ?_, ?_, rfl⟩
  · rw [enforce_limits, show classify_scope .GET "/healthz" = none from
      by decide]
  · rw [enforce_limits, show classify_scope .GET "/healthz" = none from
      by decide]

end Lattice
